import Mathlib

/-!
# go-mongo-nats-connector: the supervisor `Connector.Run` and the process entry point

A shallow embedding of `internal/connector/connector.go` and `cmd/connector/main.go`.

`Run` is sequential code that talks to the outside world (MongoDB, NATS, the task
group).  It is embedded as a pure function that returns the ordered list of
effects it performs together with the way it ends.  The result of every outside
call is supplied by an environment that sees the whole history so far, so no
assumption is made about how the collaborators behave.
-/

namespace MongoNats

/-- Go `error` values (non-nil), identified by their message. -/
abbrev Error := String

/-- Signals handed to `signal.NotifyContext`. -/
inductive Signal
  | SIGINT
  | SIGTERM
  deriving DecidableEq, Repr

/-- Values of Go `context.Context`, by the constructor that built them. -/
inductive Context
  | Background
  | NotifyContext (parent : Context) (signals : List Signal)
  | WithCancel (parent : Context)
  | WithTimeout (parent : Context) (timeout : Nat)
  deriving DecidableEq, Repr

/-- Whether `ctx.Deadline()` reports a deadline: only a timeout context (or a
child of one) has one. -/
def Context.hasDeadline : Context → Bool
  | .Background => false
  | .NotifyContext p _ => p.hasDeadline
  | .WithCancel p => p.hasDeadline
  | .WithTimeout _ _ => true

/-- One entry of `cfg.Connector.Collections`.  The three fields that `Run`
reads through a pointer are options: `none` is the nil pointer. -/
structure Collection where
  DbName : String
  CollName : String
  ChangeStreamPreAndPostImages : Option Bool
  TokensDbName : String
  TokensCollName : String
  TokensCollCapped : Option Bool
  TokensCollSize : Option Int
  StreamName : String
  deriving DecidableEq, Repr

/-- The part of `config.Config` (its `Connector` section) read by `New` and `Run`. -/
structure Config where
  Addr : String
  MongoUri : String
  NatsUrl : String
  Collections : List Collection
  deriving DecidableEq, Repr

/-- Go `mongo.CreateCollectionOptions`; a field left out of a literal is its zero value. -/
structure CreateCollectionOptions where
  DbName : String
  CollName : String
  Capped : Bool := false
  SizeInBytes : Int := 0
  ChangeStreamPreAndPostImages : Bool := false
  deriving DecidableEq, Repr

/-- Go `mongo.WatchCollectionOptions` as filled in by `Run`. -/
structure WatchCollectionOptions where
  WatchedDbName : String
  WatchedCollName : String
  ResumeTokensDbName : String
  ResumeTokensCollName : String
  deriving DecidableEq, Repr

/-- The two clients owned by the connector. -/
inductive Client
  | mongoClient
  | natsClient
  deriving DecidableEq, Repr

/-- The closures handed to `group.Go`, with what each one captures. -/
inductive Task
  | watcher (ctx : Context) (opts : WatchCollectionOptions)
  | listenAndServe (addr : String)
  | shutdown (done : Context) (shutdownCtx : Context)
  deriving DecidableEq, Repr

/-- The effects of `Run`, in program order.  A call that returns an `error`
carries the value it returned (`none` is nil). -/
inductive Effect
  | CreateCollection (ctx : Context) (opts : CreateCollectionOptions) (err : Option Error)
  | AddStream (name : String) (err : Option Error)
  | Go (task : Task)
  | Wait (err : Option Error)
  | stop
  | Close (client : Client) (err : Option Error)
  deriving DecidableEq, Repr

/-- The collaborators of `Run`: each answer may depend on everything done so far. -/
structure Env where
  CreateCollection : List Effect → Context → CreateCollectionOptions → Option Error
  AddStream : List Effect → String → Option Error
  Wait : List Effect → Option Error
  Close : List Effect → Client → Option Error

/-- The `http.Server` built by `New`. -/
structure Server where
  Addr : String
  BaseContext : Context
  deriving DecidableEq, Repr

/-- The `Connector` struct (the logger carries no behaviour and is left out). -/
structure Connector where
  ctx : Context
  cfg : Config
  server : Server
  deriving DecidableEq, Repr

/-- How a call of `Run` ends: it returns an error value (possibly nil), or a
nil pointer dereference makes it fault. -/
inductive Outcome
  | returned (err : Option Error)
  | panicked
  deriving DecidableEq, Repr

/-- What a call of `Run` did and how it ended. -/
structure Result where
  trace : List Effect
  outcome : Outcome
  deriving DecidableEq, Repr

/-- How one pass through the body of the `for` loop ends. -/
inductive LoopExit
  | next
  | returned (err : Error)
  | panicked
  deriving DecidableEq, Repr

/-- The body of the `for` loop of `Run` (connector.go lines 84-117) for one
collection, started after the effects `tr`.  The closure given to `group.Go`
reads the copy `coll` made at line 84, which belongs to this pass alone, so the
options it builds are those of this collection. -/
def loopBody (env : Env) (groupCtx : Context) (coll : Collection) (tr : List Effect) :
    List Effect × LoopExit :=
  match coll.ChangeStreamPreAndPostImages with
  | none => (tr, .panicked)
  | some images =>
    let createWatchedCollOpts : CreateCollectionOptions :=
      { DbName := coll.DbName, CollName := coll.CollName, ChangeStreamPreAndPostImages := images }
    match env.CreateCollection tr groupCtx createWatchedCollOpts with
    | some err => (tr ++ [.CreateCollection groupCtx createWatchedCollOpts (some err)], .returned err)
    | none =>
      let tr1 := tr ++ [.CreateCollection groupCtx createWatchedCollOpts none]
      match coll.TokensCollCapped, coll.TokensCollSize with
      | none, _ => (tr1, .panicked)
      | some _, none => (tr1, .panicked)
      | some capped, some size =>
        let createResumeTokensCollOpts : CreateCollectionOptions :=
          { DbName := coll.TokensDbName, CollName := coll.TokensCollName,
            Capped := capped, SizeInBytes := size }
        match env.CreateCollection tr1 groupCtx createResumeTokensCollOpts with
        | some err =>
          (tr1 ++ [.CreateCollection groupCtx createResumeTokensCollOpts (some err)], .returned err)
        | none =>
          let tr2 := tr1 ++ [.CreateCollection groupCtx createResumeTokensCollOpts none]
          match env.AddStream tr2 coll.StreamName with
          | some err => (tr2 ++ [.AddStream coll.StreamName (some err)], .returned err)
          | none =>
            let tr3 := tr2 ++ [.AddStream coll.StreamName none]
            let watchCollOpts : WatchCollectionOptions :=
              { WatchedDbName := coll.DbName, WatchedCollName := coll.CollName,
                ResumeTokensDbName := coll.TokensDbName,
                ResumeTokensCollName := coll.TokensCollName }
            (tr3 ++ [.Go (.watcher groupCtx watchCollOpts)], .next)

/-- The `for _, _coll := range c.cfg.Connector.Collections` loop. -/
def rangeCollections (env : Env) (groupCtx : Context) :
    List Collection → List Effect → List Effect × LoopExit
  | [], tr => (tr, .next)
  | coll :: rest, tr =>
    match loopBody env groupCtx coll tr with
    | (tr1, .next) => rangeCollections env groupCtx rest tr1
    | (tr1, .returned err) => (tr1, .returned err)
    | (tr1, .panicked) => (tr1, .panicked)

/-- The function `closeClient` (connector.go lines 149-153): calls `Close`; the
error it may return is only printed to the log. -/
def closeClient (env : Env) (client : Client) (tr : List Effect) : List Effect :=
  tr ++ [.Close client (env.Close tr client)]

/-- The deferred calls of `Run` (lines 73-75), in the order they run when `Run`
ends, last deferred first: `c.stop()`, `closeClient(c.natsClient)`,
`closeClient(c.mongoClient)`. -/
def runDeferred (env : Env) (tr : List Effect) : List Effect :=
  closeClient env .mongoClient (closeClient env .natsClient (tr ++ [.stop]))

/-- The context `errgroup.WithContext(c.ctx)` returns. -/
def Connector.groupCtx (c : Connector) : Context := .WithCancel c.ctx

/-- The method `(*Connector).Run` (connector.go lines 72-132). -/
def Connector.Run (c : Connector) (env : Env) : Result :=
  let groupCtx := c.groupCtx
  match rangeCollections env groupCtx c.cfg.Collections [] with
  | (tr, .returned err) => { trace := runDeferred env tr, outcome := .returned (some err) }
  | (tr, .panicked) => { trace := runDeferred env tr, outcome := .panicked }
  | (tr, .next) =>
    let tr1 := tr ++ [.Go (.listenAndServe c.server.Addr)]
    let tr2 := tr1 ++ [.Go (.shutdown groupCtx .Background)]
    let err := env.Wait tr2
    { trace := runDeferred env (tr2 ++ [.Wait err]), outcome := .returned err }

/-- The constructors of the two clients, as `New` sees them: each either
yields a client or an error. -/
structure NewEnv where
  NewMongoClient : String → Option Error
  NewNatsClient : String → Option Error

/-- The function `New` (connector.go lines 34-70). -/
def New (env : NewEnv) (cfg : Config) : Except Error Connector :=
  match env.NewMongoClient cfg.MongoUri with
  | some err => .error err
  | none =>
    match env.NewNatsClient cfg.NatsUrl with
    | some err => .error err
    | none =>
      let ctx := Context.NotifyContext .Background [.SIGINT, .SIGTERM]
      .ok { ctx := ctx, cfg := cfg, server := { Addr := cfg.Addr, BaseContext := ctx } }

/-- The way the process ends: its exit status and the last line it logged. -/
structure Exit where
  status : Nat
  message : String
  deriving DecidableEq, Repr

/-- Go `log.Fatalf`: prints the message, then calls `os.Exit(1)`. -/
def Fatalf (message : String) : Exit := { status := 1, message := message }

/-- The Go runtime on a panic nobody recovers: the process exits with status 2. -/
def runtimePanic : Exit :=
  { status := 2,
    message := "panic: runtime error: invalid memory address or nil pointer dereference" }

/-- Go formatting of an error value with the verb v. -/
def formatError : Option Error → String
  | none => "<nil>"
  | some err => err

/-- What `main` depends on: the process environment, `config.Load`, and the
collaborators of `New` and `Run`. -/
structure MainEnv where
  LookupEnv : String → Option String
  Load : String → Except Error Config
  newEnv : NewEnv
  runEnv : Env

/-- The constant `defaultConfigFileName` of main.go. -/
def defaultConfigFileName : String := "connector.yaml"

/-- The name of the config file (main.go lines 14-17): the value of
`CONFIG_FILE` when the variable is set, the default otherwise. -/
def configFileName (env : MainEnv) : String :=
  match env.LookupEnv "CONFIG_FILE" with
  | some name => name
  | none => defaultConfigFileName

/-- The function `main` (main.go lines 13-27). -/
def main (env : MainEnv) : Exit :=
  match env.Load (configFileName env) with
  | .error err => Fatalf ("error while loading config: " ++ err)
  | .ok cfg =>
    match New env.newEnv cfg with
    | .error err => Fatalf ("could not create connector: " ++ err)
    | .ok conn =>
      match (conn.Run env.runEnv).outcome with
      | .returned err => Fatalf ("exiting: " ++ formatError err)
      | .panicked => runtimePanic

/-! ## Vocabulary of the properties -/

/-- All three optional fields of a collection entry are set (no nil pointer). -/
def Collection.Populated (coll : Collection) : Prop :=
  coll.ChangeStreamPreAndPostImages ≠ none ∧ coll.TokensCollCapped ≠ none ∧
    coll.TokensCollSize ≠ none

instance (coll : Collection) : Decidable coll.Populated :=
  inferInstanceAs (Decidable (coll.ChangeStreamPreAndPostImages ≠ none ∧
    coll.TokensCollCapped ≠ none ∧ coll.TokensCollSize ≠ none))

/-- Every resource-creation call succeeds, whatever happened before it. -/
def Env.EnsureSucceeds (env : Env) : Prop :=
  (∀ tr ctx opts, env.CreateCollection tr ctx opts = none) ∧ (∀ tr name, env.AddStream tr name = none)

/-- The creation request for the watched collection of a config entry. -/
def watchedCollOpts (coll : Collection) : CreateCollectionOptions :=
  { DbName := coll.DbName, CollName := coll.CollName, Capped := false, SizeInBytes := 0,
    ChangeStreamPreAndPostImages := coll.ChangeStreamPreAndPostImages.getD false }

/-- The creation request for the resume-token collection of a config entry. -/
def resumeTokensCollOpts (coll : Collection) : CreateCollectionOptions :=
  { DbName := coll.TokensDbName, CollName := coll.TokensCollName,
    Capped := coll.TokensCollCapped.getD false, SizeInBytes := coll.TokensCollSize.getD 0,
    ChangeStreamPreAndPostImages := false }

/-- The watcher task of a config entry: it is told the watched and the
resume-token database and collection names, nothing else of the entry. -/
def watcherTask (groupCtx : Context) (coll : Collection) : Task :=
  .watcher groupCtx
    { WatchedDbName := coll.DbName, WatchedCollName := coll.CollName,
      ResumeTokensDbName := coll.TokensDbName, ResumeTokensCollName := coll.TokensCollName }

/-- An ensure step: a call of `CreateCollection` or of `AddStream`. -/
def Effect.isEnsure : Effect → Bool
  | .CreateCollection _ _ _ => true
  | .AddStream _ _ => true
  | _ => false

/-- An ensure step that returned an error. -/
def Effect.failed : Effect → Bool
  | .CreateCollection _ _ (some _) => true
  | .AddStream _ (some _) => true
  | _ => false

/-- All the ensure steps of the configuration are made and succeed in a trace:
the three steps of every collection are there and none returned an error. -/
def AllEnsured (c : Connector) (tr : List Effect) : Prop :=
  (tr.filter Effect.isEnsure).length = 3 * c.cfg.Collections.length ∧
    ∀ e ∈ tr, e.failed = false

instance (c : Connector) (tr : List Effect) : Decidable (AllEnsured c tr) :=
  inferInstanceAs (Decidable ((tr.filter Effect.isEnsure).length = 3 * c.cfg.Collections.length ∧
    ∀ e ∈ tr, e.failed = false))

/-- The effects of one collection whose three ensure steps succeed: watched
collection, token collection, stream, and only then the watcher. -/
def ensuredThenWatched (groupCtx : Context) (coll : Collection) : List Effect :=
  [ .CreateCollection groupCtx (watchedCollOpts coll) none,
    .CreateCollection groupCtx (resumeTokensCollOpts coll) none,
    .AddStream coll.StreamName none,
    .Go (watcherTask groupCtx coll) ]

/-- The tasks handed to `group.Go` in a trace, in order. -/
def spawned : List Effect → List Task
  | [] => []
  | .Go task :: rest => task :: spawned rest
  | _ :: rest => spawned rest

/-- The options of the `CreateCollection` calls of a trace, in order. -/
def createRequests : List Effect → List CreateCollectionOptions
  | [] => []
  | .CreateCollection _ opts _ :: rest => opts :: createRequests rest
  | _ :: rest => createRequests rest

/-- The ensure steps of collection `coll`, started after `tr`, are the effects
`steps`, and the last of them returns the error `err` (the ones before it
return nil): the failure is in the watched collection, in the token collection
or in the stream. -/
inductive EnsureFails (env : Env) (groupCtx : Context) (coll : Collection) (tr : List Effect)
    (err : Error) : List Effect → Prop
  | watched (images : Bool) (himages : coll.ChangeStreamPreAndPostImages = some images)
      (h1 : env.CreateCollection tr groupCtx (watchedCollOpts coll) = some err) :
      EnsureFails env groupCtx coll tr err
        [.CreateCollection groupCtx (watchedCollOpts coll) (some err)]
  | tokens (hpop : coll.Populated)
      (h1 : env.CreateCollection tr groupCtx (watchedCollOpts coll) = none)
      (h2 : env.CreateCollection (tr ++ [.CreateCollection groupCtx (watchedCollOpts coll) none])
        groupCtx (resumeTokensCollOpts coll) = some err) :
      EnsureFails env groupCtx coll tr err
        [.CreateCollection groupCtx (watchedCollOpts coll) none,
         .CreateCollection groupCtx (resumeTokensCollOpts coll) (some err)]
  | stream (hpop : coll.Populated)
      (h1 : env.CreateCollection tr groupCtx (watchedCollOpts coll) = none)
      (h2 : env.CreateCollection (tr ++ [.CreateCollection groupCtx (watchedCollOpts coll) none])
        groupCtx (resumeTokensCollOpts coll) = none)
      (h3 : env.AddStream (tr ++ [.CreateCollection groupCtx (watchedCollOpts coll) none,
        .CreateCollection groupCtx (resumeTokensCollOpts coll) none]) coll.StreamName = some err) :
      EnsureFails env groupCtx coll tr err
        [.CreateCollection groupCtx (watchedCollOpts coll) none,
         .CreateCollection groupCtx (resumeTokensCollOpts coll) none,
         .AddStream coll.StreamName (some err)]

/-- Clients outlive every watcher, read on a trace: whenever a client is
closed after a watcher was started, `group.Wait` (which returns once every
task of the group has returned) has returned before the close. -/
def ClientsOutliveWatchers (tr : List Effect) : Prop :=
  ∀ before client err after, tr = before ++ .Close client err :: after →
    (∃ ctx opts, Effect.Go (.watcher ctx opts) ∈ before) → ∃ werr, Effect.Wait werr ∈ before

/-- ASCII upper-casing, standing for Go `strings.ToUpper` on the ASCII names
used here. -/
def upper (s : String) : String := ⟨s.data.map Char.toUpper⟩

/-- The subject on which, in the words of the specification, a change event
of operation type `op` of a collection is published:
`upper(streamName) + "." + operationType`. -/
def specSubject (coll : Collection) (op : String) : String :=
  upper coll.StreamName ++ "." ++ op

/-! ## The collection watcher

`mongo.CollectionWatcher.WatchCollection` belongs to the package
`internal/mongo`, whose code is not part of this development; only its caller
(`Run`) and the integration test are.  Its state machine is therefore written
down from the specification (sections 3, 4.1, 4.2, 4.4 and 4.5): every state
and every transition of section 4.5, with the answers of the source, the bus
and the token store as inputs.
-/

namespace Watcher

/-- Modelled from the spec: the change event of section 3 (the watcher of
`internal/mongo` that consumes it is missing): the opaque token `_id._data`,
the operation type and the rest of the document. -/
structure ChangeEvent where
  idData : String
  operationType : String
  document : String
  deriving DecidableEq, Repr

/-- Modelled from the spec: the token store of section 4.4 (its code in
`internal/mongo` is missing): the values of the records `{value: token}` in
natural insertion order, oldest first, in a capped or uncapped collection. -/
structure TokenStore where
  capped : Bool
  records : List String
  deriving DecidableEq, Repr

/-- Modelled from the spec: `Append(token)` of section 4.4 (code missing):
inserts the record; a capped collection may then evict some of the oldest
records, never the one just inserted (section 8: after eviction `Last()` still
returns the most recent token). -/
def TokenStore.Append (store : TokenStore) (token : String) (evicted : Nat) : TokenStore :=
  let inserted := store.records ++ [token]
  { store with
    records := if store.capped then inserted.drop (min evicted store.records.length) else inserted }

/-- Modelled from the spec: `Last()` of section 4.4 (code missing): the value
of the record with the greatest natural insertion order, none when empty. -/
def TokenStore.Last (store : TokenStore) : Option String :=
  store.records.getLast?

/-- Modelled from the spec: a message handed to the bus (`Publish(subject,
payload, dedupId)` of section 4.2, code missing). -/
structure Message where
  subject : String
  payload : String
  dedupId : String
  deriving DecidableEq, Repr

/-- Modelled from the spec: the three answers of `Watch` told apart in section
4.5 item 2 (the watcher code is missing): the stream is open, a resumable
error, a non-resumable error (token invalidated). -/
inductive WatchResult
  | opened
  | resumableError
  | nonResumableError
  deriving DecidableEq, Repr

/-- Modelled from the spec: the event a draining watcher still has in hand
(section 4.5 item 7, code missing): its publish is under way, or it is
published and its token is still to be appended. -/
inductive InFlight
  | publishing (ev : ChangeEvent)
  | persisting (ev : ChangeEvent)
  deriving DecidableEq, Repr

/-- Modelled from the spec: the eight states of section 4.5 (the watcher code
is missing).  Opening carries the token handed to `Watch`; Draining carries the
event still in hand, if any. -/
inductive Phase
  | Init
  | Opening (token : Option String)
  | Running
  | Forwarding (ev : ChangeEvent)
  | Persisting (ev : ChangeEvent)
  | Backoff
  | Draining (inflight : Option InFlight)
  | Terminal
  deriving DecidableEq, Repr

/-- Modelled from the spec: what a watcher does to its collaborators, in order
(sections 4.1, 4.2 and 4.4, code missing): a `Watch` with its token and answer,
a `Publish` and whether the bus acknowledged it, an `Append` and whether the
store accepted it, the closing of the cursor. -/
inductive Action
  | watch (token : Option String) (result : WatchResult)
  | publish (msg : Message) (ok : Bool)
  | append (token : String) (ok : Bool)
  | closeCursor
  deriving DecidableEq, Repr

/-- Modelled from the spec: a watcher (section 4.5, code missing) with its
private token store and the record of what it did. -/
structure State where
  phase : Phase
  streamName : String
  store : TokenStore
  trace : List Action
  deriving DecidableEq, Repr

/-- Modelled from the spec: what happens to a watcher (section 4.5, code
missing): the last token is loaded, `Watch` answers, the cursor yields an
event, ends gracefully or fails, the bus answers a publish, the store answers
an append (with the number of old records a capped collection evicts), the
backoff delay is over, the scope is cancelled, the cursor is closed. -/
inductive Input
  | loaded
  | watchResult (result : WatchResult)
  | event (ev : ChangeEvent)
  | cursorEnd
  | cursorError
  | publishResult (ok : Bool)
  | appendResult (ok : Bool) (evicted : Nat)
  | backoffElapsed
  | cancel
  | cursorClosed
  deriving DecidableEq, Repr

/-- Modelled from the spec: the message of the Forwarding state (section 4.5
item 4, code missing): subject `upper(streamName) + "." + operationType`, the
event as payload, the token as dedup id. -/
def message (s : State) (ev : ChangeEvent) : Message :=
  { subject := upper s.streamName ++ "." ++ ev.operationType, payload := ev.document,
    dedupId := ev.idData }

/-- Modelled from the spec: Init of section 4.5 item 1 (the watcher code is
missing): the last token is loaded, then Opening with it. -/
def stepInit (s : State) : Input → State
  | .loaded => { s with phase := .Opening s.store.Last }
  | _ => s

/-- Modelled from the spec: Opening of section 4.5 item 2 (code missing):
`Watch` with the token; opened goes to Running, a resumable error to Backoff, a
non-resumable error to Opening without token, cancellation to Terminal. -/
def stepOpening (s : State) (token : Option String) : Input → State
  | .watchResult .opened =>
    { s with phase := .Running, trace := s.trace ++ [.watch token .opened] }
  | .watchResult .resumableError =>
    { s with phase := .Backoff, trace := s.trace ++ [.watch token .resumableError] }
  | .watchResult .nonResumableError =>
    { s with phase := .Opening none, trace := s.trace ++ [.watch token .nonResumableError] }
  | .cancel => { s with phase := .Terminal }
  | _ => s

/-- Modelled from the spec: Running of section 4.5 item 3 (code missing): an
event goes to Forwarding, except that an event with a zero-value `id.data` is
skipped without advancing state; a graceful end of the cursor goes to Opening
with the last appended token, a fatal cursor error to Backoff, cancellation to
Draining. -/
def stepRunning (s : State) : Input → State
  | .event ev => if ev.idData = "" then s else { s with phase := .Forwarding ev }
  | .cursorEnd => { s with phase := .Opening s.store.Last }
  | .cursorError => { s with phase := .Backoff }
  | .cancel => { s with phase := .Draining none }
  | _ => s

/-- Modelled from the spec: Forwarding of section 4.5 item 4 (code missing):
the message is published; success goes to Persisting, an error to Backoff
without advancing the token.  A cancellation that arrives meanwhile lets the
event in hand finish (section 8: signal received mid-publish). -/
def stepForwarding (s : State) (ev : ChangeEvent) : Input → State
  | .publishResult true =>
    { s with phase := .Persisting ev, trace := s.trace ++ [.publish (message s ev) true] }
  | .publishResult false =>
    { s with phase := .Backoff, trace := s.trace ++ [.publish (message s ev) false] }
  | .cancel => { s with phase := .Draining (some (.publishing ev)) }
  | _ => s

/-- Modelled from the spec: Persisting of section 4.5 item 5 (code missing):
`Append(event.id.data)`; success goes back to Running, an error to Backoff
with the token not advanced.  A cancellation that arrives meanwhile lets the
append finish (item 7). -/
def stepPersisting (s : State) (ev : ChangeEvent) : Input → State
  | .appendResult true evicted =>
    { s with
      phase := .Running, store := s.store.Append ev.idData evicted,
      trace := s.trace ++ [.append ev.idData true] }
  | .appendResult false _ =>
    { s with phase := .Backoff, trace := s.trace ++ [.append ev.idData false] }
  | .cancel => { s with phase := .Draining (some (.persisting ev)) }
  | _ => s

/-- Modelled from the spec: Backoff of section 4.5 item 6 (code missing):
after the delay, Opening with the last appended token; cancellation goes to
Terminal. -/
def stepBackoff (s : State) : Input → State
  | .backoffElapsed => { s with phase := .Opening s.store.Last }
  | .cancel => { s with phase := .Terminal }
  | _ => s

/-- Modelled from the spec: Draining of section 4.5 item 7 (code missing): the
event in hand is finished, through Persisting if it got published; with
nothing in hand the cursor is closed and the watcher is Terminal. -/
def stepDraining (s : State) : Option InFlight → Input → State
  | some (.publishing ev), .publishResult true =>
    { s with
      phase := .Draining (some (.persisting ev)),
      trace := s.trace ++ [.publish (message s ev) true] }
  | some (.publishing ev), .publishResult false =>
    { s with phase := .Draining none, trace := s.trace ++ [.publish (message s ev) false] }
  | some (.persisting ev), .appendResult true evicted =>
    { s with
      phase := .Draining none, store := s.store.Append ev.idData evicted,
      trace := s.trace ++ [.append ev.idData true] }
  | some (.persisting ev), .appendResult false _ =>
    { s with phase := .Draining none, trace := s.trace ++ [.append ev.idData false] }
  | none, .cursorClosed => { s with phase := .Terminal, trace := s.trace ++ [.closeCursor] }
  | _, _ => s

/-- Modelled from the spec: the state machine of section 4.5, items 1 to 8
(the watcher code is missing): each state handles the inputs it waits for, any
other input changes nothing, and Terminal is final. -/
def step (s : State) (input : Input) : State :=
  match s.phase with
  | .Init => stepInit s input
  | .Opening token => stepOpening s token input
  | .Running => stepRunning s input
  | .Forwarding ev => stepForwarding s ev input
  | .Persisting ev => stepPersisting s ev input
  | .Backoff => stepBackoff s input
  | .Draining inflight => stepDraining s inflight input
  | .Terminal => s

/-- Modelled from the spec: a watcher at process start (section 4.5 item 1,
code missing): in Init, over the token collection as the previous runs left
it, nothing done yet. -/
def init (streamName : String) (store : TokenStore) : State :=
  { phase := .Init, streamName := streamName, store := store, trace := [] }

/-- The watcher after a sequence of inputs. -/
def run (s : State) (inputs : List Input) : State :=
  inputs.foldl step s

/-- Where the last event forwarded on the open stream stands: none forwarded
since the stream was opened, published, published with its token stored, or
published with the append of its token failed. -/
inductive Session
  | idle
  | published (id : String)
  | stored (id : String)
  | failed (id : String)
  deriving DecidableEq, Repr

/-- The effect of one action on the standing of the stream: a `Watch` starts
afresh, an acknowledged publish forwards an event, an append stores its token
or fails to. -/
def Session.after : Session → Action → Session
  | _, .watch _ _ => .idle
  | _, .publish msg true => .published msg.dedupId
  | session, .publish _ false => session
  | _, .append token true => .stored token
  | _, .append token false => .failed token
  | session, .closeCursor => session

/-- The standing of the stream after the actions of a trace. -/
def sessionOf (trace : List Action) : Session :=
  trace.foldl Session.after .idle

/-- The `_id._data` of the last event forwarded (published with
acknowledgement) since the stream was last opened, if any. -/
def lastForwarded (trace : List Action) : Option String :=
  match sessionOf trace with
  | .idle => none
  | .published id => some id
  | .stored id => some id
  | .failed id => some id

/-- The event whose token the watcher is about to append, if any. -/
def Phase.inFlight : Phase → Option ChangeEvent
  | .Persisting ev => some ev
  | .Draining (some (.persisting ev)) => some ev
  | _ => none

/-- The watcher has moved on: it waits for the next event of the open stream
or handles one. -/
def Phase.movedOn : Phase → Bool
  | .Running => true
  | .Forwarding _ => true
  | .Draining (some (.publishing _)) => true
  | _ => false

/-- The watcher is off the stream: it backs off, reopens the stream, or is
on its way out. -/
def Phase.offStream : Phase → Bool
  | .Backoff => true
  | .Opening _ => true
  | .Draining none => true
  | .Terminal => true
  | _ => false

/-- The state of a watcher agrees with what it did: an event that is
published and no more is the one in hand; a stored token is the last record;
after a failed append the watcher is off the stream. -/
def Consistent (s : State) : Prop :=
  match sessionOf s.trace with
  | .idle => s.phase.inFlight = none
  | .published id => ∃ ev, s.phase.inFlight = some ev ∧ ev.idData = id
  | .stored id => s.store.Last = some id ∧ s.phase.inFlight = none
  | .failed _ => s.phase.offStream = true

/-- A capped token collection holding two tokens of an earlier run. -/
def sampleStore : TokenStore :=
  { capped := true, records := ["826401", "826402"] }

/-- A run in which two inserts are forwarded and their tokens appended, each
append evicting the oldest record. -/
def sampleInputs : List Input :=
  [ .loaded, .watchResult .opened,
    .event { idData := "8264A1", operationType := "insert", document := "hi" },
    .publishResult true, .appendResult true 1,
    .event { idData := "8264A2", operationType := "insert", document := "bye" },
    .publishResult true, .appendResult true 1 ]

/-- A run in which an insert is published and the append of its token fails. -/
def sampleFailedInputs : List Input :=
  [ .loaded, .watchResult .opened,
    .event { idData := "8264A1", operationType := "insert", document := "hi" },
    .publishResult true, .appendResult false 0 ]

end Watcher

/-! ## Sample inputs

The configuration of the integration test: `coll1` with a capped token
collection of 4096 bytes, `coll2` with an uncapped one, streams `COLL1` and
`COLL2`. -/

/-- The entry for `coll1`. -/
def sampleColl1 : Collection :=
  { DbName := "test-connector", CollName := "coll1", ChangeStreamPreAndPostImages := some true,
    TokensDbName := "resume-tokens", TokensCollName := "coll1", TokensCollCapped := some true,
    TokensCollSize := some 4096, StreamName := "COLL1" }

/-- The entry for `coll2`. -/
def sampleColl2 : Collection :=
  { DbName := "test-connector", CollName := "coll2", ChangeStreamPreAndPostImages := some true,
    TokensDbName := "resume-tokens", TokensCollName := "coll2", TokensCollCapped := some false,
    TokensCollSize := some 0, StreamName := "COLL2" }

/-- The context `New` builds with `signal.NotifyContext`. -/
def sampleCtx : Context := .NotifyContext .Background [.SIGINT, .SIGTERM]

/-- A connector over the given collections, as `New` builds it. -/
def sampleConnector (colls : List Collection) : Connector :=
  { ctx := sampleCtx,
    cfg := { Addr := ":8080", MongoUri := "mongodb://mongo1:27017",
             NatsUrl := "nats://nats1:4222", Collections := colls },
    server := { Addr := ":8080", BaseContext := sampleCtx } }

/-- Collaborators that never fail. -/
def quietEnv : Env :=
  { CreateCollection := fun _ _ _ => none, AddStream := fun _ _ => none,
    Wait := fun _ => none, Close := fun _ _ => none }

/-- Collaborators where adding the stream `COLL2` fails. -/
def streamFailsEnv : Env :=
  { quietEnv with
    AddStream := fun _ name => if name = "COLL2" then some "nats: timeout" else none }

/-- Collaborators where creating a collection named `coll2` fails. -/
def createFailsEnv : Env :=
  { quietEnv with
    CreateCollection := fun _ _ opts =>
      if opts.CollName = "coll2" then some "mongo: unauthorized" else none }

/-- An entry with an uncapped token collection and no `tokensCollSize`. -/
def collWithoutSize : Collection :=
  { sampleColl2 with TokensCollSize := none }

/-- The entry for `coll1` with a stream name of its own. -/
def collOwnStream : Collection :=
  { sampleColl1 with StreamName := "EVENTS" }

/-- A process environment without `CONFIG_FILE`, where `connector.yaml` holds
the sample configuration, both clients connect and no collaborator fails. -/
def sampleMainEnv : MainEnv :=
  { LookupEnv := fun _ => none,
    Load := fun name =>
      if name = "connector.yaml" then .ok (sampleConnector [sampleColl1, sampleColl2]).cfg
      else .error "open: no such file or directory",
    newEnv := { NewMongoClient := fun _ => none, NewNatsClient := fun _ => none },
    runEnv := quietEnv }

/-- The contexts the shutdown tasks of a trace pass to `server.Shutdown`. -/
def shutdownContexts : List Effect → List Context
  | [] => []
  | .Go (.shutdown _ shutdownCtx) :: rest => shutdownCtx :: shutdownContexts rest
  | _ :: rest => shutdownContexts rest

/-! ## The loop over the collections -/

theorem loopBody_of_succeeds (env : Env) (hok : env.EnsureSucceeds) (groupCtx : Context)
    (coll : Collection) (hpop : coll.Populated) (tr : List Effect) :
    loopBody env groupCtx coll tr = (tr ++ ensuredThenWatched groupCtx coll, .next) := by
  obtain ⟨h1, h2, h3⟩ := hpop
  obtain ⟨images, hi⟩ := Option.ne_none_iff_exists.mp h1
  obtain ⟨capped, hc⟩ := Option.ne_none_iff_exists.mp h2
  obtain ⟨size, hs⟩ := Option.ne_none_iff_exists.mp h3
  simp [loopBody, ← hi, ← hc, ← hs, hok.1, hok.2, ensuredThenWatched, watchedCollOpts,
    resumeTokensCollOpts, watcherTask]

theorem rangeCollections_of_succeeds (env : Env) (hok : env.EnsureSucceeds) (groupCtx : Context)
    (colls : List Collection) (hpop : ∀ coll ∈ colls, coll.Populated) (tr : List Effect) :
    rangeCollections env groupCtx colls tr =
      (tr ++ colls.flatMap (ensuredThenWatched groupCtx), .next) := by
  induction colls generalizing tr with
  | nil => simp [rangeCollections]
  | cons coll rest ih =>
    have hc : coll.Populated := hpop coll (List.mem_cons_self _ _)
    have hr : ∀ x ∈ rest, x.Populated := fun x hx => hpop x (List.mem_cons_of_mem _ hx)
    simp [rangeCollections, loopBody_of_succeeds env hok groupCtx coll hc, ih hr]

theorem Run_of_succeeds (env : Env) (c : Connector) (hok : env.EnsureSucceeds)
    (hpop : ∀ coll ∈ c.cfg.Collections, coll.Populated) :
    ∃ werr nerr merr,
      c.Run env =
        { trace := c.cfg.Collections.flatMap (ensuredThenWatched c.groupCtx) ++
            [.Go (.listenAndServe c.server.Addr), .Go (.shutdown c.groupCtx .Background),
             .Wait werr, .stop, .Close .natsClient nerr, .Close .mongoClient merr],
          outcome := .returned werr } := by
  simp only [Connector.Run, rangeCollections_of_succeeds env hok c.groupCtx _ hpop, runDeferred,
    closeClient, List.nil_append, List.append_assoc, List.singleton_append, List.cons_append]
  exact ⟨_, _, _, rfl⟩

/-! ## Fail-fast -/

theorem loopBody_of_fails (env : Env) (groupCtx : Context) (coll : Collection)
    (tr : List Effect) (err : Error) (steps : List Effect)
    (hfail : EnsureFails env groupCtx coll tr err steps) :
    loopBody env groupCtx coll tr = (tr ++ steps, .returned err) := by
  cases hfail with
  | watched images himages h1 =>
    have h1b := h1
    simp only [watchedCollOpts, himages, Option.getD_some] at h1b
    simp [loopBody, himages, h1b, watchedCollOpts]
  | tokens hpop h1 h2 =>
    obtain ⟨p1, p2, p3⟩ := hpop
    obtain ⟨images, hi⟩ := Option.ne_none_iff_exists.mp p1
    obtain ⟨capped, hc⟩ := Option.ne_none_iff_exists.mp p2
    obtain ⟨size, hs⟩ := Option.ne_none_iff_exists.mp p3
    simp only [watchedCollOpts, resumeTokensCollOpts, ← hi, ← hc, ← hs, Option.getD_some]
      at h1 h2 ⊢
    simp [loopBody, ← hi, ← hc, ← hs, h1, h2]
  | stream hpop h1 h2 h3 =>
    obtain ⟨p1, p2, p3⟩ := hpop
    obtain ⟨images, hi⟩ := Option.ne_none_iff_exists.mp p1
    obtain ⟨capped, hc⟩ := Option.ne_none_iff_exists.mp p2
    obtain ⟨size, hs⟩ := Option.ne_none_iff_exists.mp p3
    simp only [watchedCollOpts, resumeTokensCollOpts, ← hi, ← hc, ← hs, Option.getD_some]
      at h1 h2 h3 ⊢
    simp [loopBody, ← hi, ← hc, ← hs, h1, h2, h3]

theorem loopBody_next (env : Env) (groupCtx : Context) (coll : Collection)
    (tr tr1 : List Effect) (h : loopBody env groupCtx coll tr = (tr1, .next)) :
    coll.Populated ∧ tr1 = tr ++ ensuredThenWatched groupCtx coll := by
  unfold loopBody at h
  split at h
  · simp at h
  · rename_i images hi
    simp only at h
    split at h
    · simp at h
    · split at h
      · simp at h
      · simp at h
      · rename_i capped size hc hs
        split at h
        · simp at h
        · split at h
          · simp at h
          · simp only [Prod.mk.injEq, and_true] at h
            refine ⟨⟨by simp [hi], by simp [hc], by simp [hs]⟩, ?_⟩
            simp [← h, ensuredThenWatched, watchedCollOpts, resumeTokensCollOpts, watcherTask,
              hi, hc, hs]

theorem ensureFails_of_loopBody_returned (env : Env) (groupCtx : Context) (coll : Collection)
    (tr tr1 : List Effect) (err : Error)
    (h : loopBody env groupCtx coll tr = (tr1, .returned err)) :
    ∃ steps, EnsureFails env groupCtx coll tr err steps ∧ tr1 = tr ++ steps := by
  cases himages : coll.ChangeStreamPreAndPostImages with
  | none => simp [loopBody, himages] at h
  | some images =>
    have hw : watchedCollOpts coll =
        { DbName := coll.DbName, CollName := coll.CollName,
          ChangeStreamPreAndPostImages := images } := by
      simp [watchedCollOpts, himages]
    simp only [loopBody, himages, ← hw] at h
    cases h1 : env.CreateCollection tr groupCtx (watchedCollOpts coll) with
    | some err1 =>
      simp only [h1, Prod.mk.injEq, LoopExit.returned.injEq] at h
      obtain ⟨rfl, rfl⟩ := h
      exact ⟨_, EnsureFails.watched images himages h1, rfl⟩
    | none =>
      simp only [h1] at h
      cases hcapped : coll.TokensCollCapped with
      | none => simp [hcapped] at h
      | some capped =>
        cases hsize : coll.TokensCollSize with
        | none => simp [hcapped, hsize] at h
        | some size =>
          have hpop : coll.Populated := by simp [Collection.Populated, himages, hcapped, hsize]
          have ht : resumeTokensCollOpts coll =
              { DbName := coll.TokensDbName, CollName := coll.TokensCollName,
                Capped := capped, SizeInBytes := size } := by
            simp [resumeTokensCollOpts, hcapped, hsize]
          simp only [hcapped, hsize, ← ht] at h
          cases h2 : env.CreateCollection
              (tr ++ [.CreateCollection groupCtx (watchedCollOpts coll) none]) groupCtx
              (resumeTokensCollOpts coll) with
          | some err2 =>
            simp only [h2, Prod.mk.injEq, LoopExit.returned.injEq] at h
            obtain ⟨rfl, rfl⟩ := h
            exact ⟨_, EnsureFails.tokens hpop h1 h2, by simp⟩
          | none =>
            simp only [h2, List.append_assoc, List.singleton_append] at h
            cases h3 : env.AddStream
                (tr ++ [.CreateCollection groupCtx (watchedCollOpts coll) none,
                  .CreateCollection groupCtx (resumeTokensCollOpts coll) none])
                coll.StreamName with
            | some err3 =>
              simp only [h3, Prod.mk.injEq, LoopExit.returned.injEq] at h
              obtain ⟨rfl, rfl⟩ := h
              exact ⟨_, EnsureFails.stream hpop h1 h2 h3, rfl⟩
            | none => simp [h3] at h

theorem loopBody_panicked_trace (env : Env) (groupCtx : Context) (coll : Collection)
    (tr tr1 : List Effect)
    (h : loopBody env groupCtx coll tr = (tr1, .panicked)) :
    ¬ coll.Populated ∧
      (tr1 = tr ∨ tr1 = tr ++ [.CreateCollection groupCtx (watchedCollOpts coll) none]) := by
  cases himages : coll.ChangeStreamPreAndPostImages <;>
    cases hcapped : coll.TokensCollCapped <;>
    cases hsize : coll.TokensCollSize <;>
    simp only [loopBody, himages, hcapped, hsize] at h <;>
    repeat' split at h
  all_goals simp only [Prod.mk.injEq, reduceCtorEq, and_false, and_true] at h
  all_goals
    subst h
    simp [Collection.Populated, watchedCollOpts, himages, hcapped, hsize]


theorem rangeCollections_next (env : Env) (groupCtx : Context) (colls : List Collection)
    (tr tr1 : List Effect) (h : rangeCollections env groupCtx colls tr = (tr1, .next)) :
    (∀ coll ∈ colls, coll.Populated) ∧
      tr1 = tr ++ colls.flatMap (ensuredThenWatched groupCtx) := by
  induction colls generalizing tr with
  | nil =>
    simp only [rangeCollections, Prod.mk.injEq, and_true] at h
    simp [h]
  | cons coll rest ih =>
    simp only [rangeCollections] at h
    split at h
    · rename_i tr2 hbody
      obtain ⟨hp, ht⟩ := loopBody_next env groupCtx coll tr tr2 hbody
      obtain ⟨hps, hts⟩ := ih tr2 h
      refine ⟨?_, ?_⟩
      · intro x hx
        rcases List.mem_cons.mp hx with rfl | hx
        · exact hp
        · exact hps x hx
      · simp [hts, ht]
    · simp at h
    · simp at h

theorem rangeCollections_append_of_next (env : Env) (groupCtx : Context)
    (before rest : List Collection) (tr tr1 : List Effect)
    (h : rangeCollections env groupCtx before tr = (tr1, .next)) :
    rangeCollections env groupCtx (before ++ rest) tr = rangeCollections env groupCtx rest tr1 := by
  induction before generalizing tr with
  | nil =>
    simp only [rangeCollections, Prod.mk.injEq, and_true] at h
    simp [h]
  | cons coll more ih =>
    simp only [rangeCollections] at h
    simp only [List.cons_append, rangeCollections]
    split at h
    · rename_i tr2 hbody
      exact ih tr2 h
    · simp at h
    · simp at h

theorem spawned_append (xs ys : List Effect) : spawned (xs ++ ys) = spawned xs ++ spawned ys := by
  induction xs with
  | nil => rfl
  | cons x rest ih => cases x <;> simp [spawned, ih]

theorem spawned_ensuredThenWatched (groupCtx : Context) (colls : List Collection) :
    spawned (colls.flatMap (ensuredThenWatched groupCtx)) = colls.map (watcherTask groupCtx) := by
  induction colls with
  | nil => rfl
  | cons coll rest ih =>
    rw [List.flatMap_cons, spawned_append, ih]
    rfl

theorem filter_isEnsure_of_fails (env : Env) (groupCtx : Context) (coll : Collection)
    (tr : List Effect) (err : Error) (steps : List Effect)
    (hfail : EnsureFails env groupCtx coll tr err steps) :
    steps.filter Effect.isEnsure = steps ∧ spawned steps = [] ∧
      ∃ step, steps.getLast? = some step ∧
        (step = .CreateCollection groupCtx (watchedCollOpts coll) (some err) ∨
         step = .CreateCollection groupCtx (resumeTokensCollOpts coll) (some err) ∨
         step = .AddStream coll.StreamName (some err)) := by
  cases hfail <;> simp [Effect.isEnsure, spawned]

theorem loopBody_returned (env : Env) (groupCtx : Context) (coll : Collection)
    (tr tr1 : List Effect) (err : Error)
    (h : loopBody env groupCtx coll tr = (tr1, .returned err)) :
    ∃ e ∈ tr1, e.failed = true := by
  cases himages : coll.ChangeStreamPreAndPostImages <;>
    cases hcapped : coll.TokensCollCapped <;>
    cases hsize : coll.TokensCollSize <;>
    simp only [loopBody, himages, hcapped, hsize] at h <;>
    repeat' split at h
  all_goals simp only [Prod.mk.injEq, LoopExit.returned.injEq, reduceCtorEq, and_false] at h
  all_goals
    obtain ⟨h1, -⟩ := h
    subst h1
    exact ⟨_, List.mem_append_right _ (List.mem_singleton_self _), rfl⟩

theorem loopBody_panicked (env : Env) (groupCtx : Context) (coll : Collection)
    (tr tr1 : List Effect)
    (h : loopBody env groupCtx coll tr = (tr1, .panicked)) :
    ∃ added, tr1 = tr ++ added ∧ (added.filter Effect.isEnsure).length ≤ 1 := by
  cases himages : coll.ChangeStreamPreAndPostImages <;>
    cases hcapped : coll.TokensCollCapped <;>
    cases hsize : coll.TokensCollSize <;>
    simp only [loopBody, himages, hcapped, hsize] at h <;>
    repeat' split at h
  all_goals simp only [Prod.mk.injEq, reduceCtorEq, and_false, and_true] at h
  all_goals
    subst h
    first
      | exact ⟨[], (List.append_nil _).symm, Nat.zero_le _⟩
      | exact ⟨[_], rfl, Nat.le_refl _⟩

theorem rangeCollections_returned (env : Env) (groupCtx : Context) (colls : List Collection)
    (tr tr1 : List Effect) (err : Error)
    (h : rangeCollections env groupCtx colls tr = (tr1, .returned err)) :
    ∃ e ∈ tr1, e.failed = true := by
  induction colls generalizing tr with
  | nil => simp [rangeCollections] at h
  | cons coll rest ih =>
    simp only [rangeCollections] at h
    split at h
    · exact ih _ h
    · rename_i tr2 err2 hbody
      simp only [Prod.mk.injEq, LoopExit.returned.injEq] at h
      obtain ⟨h1, -⟩ := h
      subst h1
      exact loopBody_returned env groupCtx coll tr tr2 err2 hbody
    · simp at h

theorem rangeCollections_panicked (env : Env) (groupCtx : Context) (colls : List Collection)
    (tr tr1 : List Effect)
    (h : rangeCollections env groupCtx colls tr = (tr1, .panicked)) :
    ∃ added, tr1 = tr ++ added ∧ (added.filter Effect.isEnsure).length < 3 * colls.length := by
  induction colls generalizing tr with
  | nil => simp [rangeCollections] at h
  | cons coll rest ih =>
    simp only [rangeCollections] at h
    split at h
    · rename_i tr2 hbody
      obtain ⟨-, htr2⟩ := loopBody_next env groupCtx coll tr tr2 hbody
      obtain ⟨added, hadd, hlen⟩ := ih tr2 h
      refine ⟨ensuredThenWatched groupCtx coll ++ added, ?_, ?_⟩
      · rw [hadd, htr2, List.append_assoc]
      · simp only [List.filter_append, List.length_append, List.length_cons]
        have : ((ensuredThenWatched groupCtx coll).filter Effect.isEnsure).length = 3 := by
          simp [ensuredThenWatched, Effect.isEnsure, List.filter]
        omega
    · simp at h
    · rename_i tr2 hbody
      simp only [Prod.mk.injEq, and_true] at h
      subst h
      obtain ⟨added, hadd, hlen⟩ := loopBody_panicked env groupCtx coll tr tr2 hbody
      exact ⟨added, hadd, by simp only [List.length_cons]; omega⟩

theorem filter_isEnsure_runDeferred (env : Env) (tr : List Effect) :
    (runDeferred env tr).filter Effect.isEnsure = tr.filter Effect.isEnsure := by
  simp [runDeferred, closeClient, List.filter_append, Effect.isEnsure]

theorem mem_runDeferred (env : Env) (tr : List Effect) (e : Effect) (h : e ∈ tr) :
    e ∈ runDeferred env tr := by
  simp [runDeferred, closeClient, h]

/-- When all the ensure steps of the configuration are made and succeed, the
loop of `Run` completed: the optional fields were all set and the run is the
one of the success path. -/
theorem Run_of_all_ensured (env : Env) (c : Connector) (hall : AllEnsured c (c.Run env).trace) :
    (∀ coll ∈ c.cfg.Collections, coll.Populated) ∧
    ∃ werr nerr merr,
      c.Run env =
        { trace := c.cfg.Collections.flatMap (ensuredThenWatched c.groupCtx) ++
            [.Go (.listenAndServe c.server.Addr), .Go (.shutdown c.groupCtx .Background),
             .Wait werr, .stop, .Close .natsClient nerr, .Close .mongoClient merr],
          outcome := .returned werr } := by
  obtain ⟨hcount, hnofail⟩ := hall
  cases hloop : rangeCollections env c.groupCtx c.cfg.Collections [] with
  | mk tr exit =>
    cases exit with
    | next =>
      obtain ⟨hpop, htr⟩ := rangeCollections_next env c.groupCtx _ [] tr hloop
      refine ⟨hpop, ?_⟩
      simp only [Connector.Run, hloop, runDeferred, closeClient, htr, List.nil_append,
        List.append_assoc, List.singleton_append, List.cons_append]
      exact ⟨_, _, _, rfl⟩
    | returned err =>
      obtain ⟨e, hmem, hfailed⟩ := rangeCollections_returned env c.groupCtx _ [] tr err hloop
      have hrun : (c.Run env).trace = runDeferred env tr := by simp [Connector.Run, hloop]
      have := hnofail e (by rw [hrun]; exact mem_runDeferred env tr e hmem)
      rw [hfailed] at this
      exact absurd this (by simp)
    | panicked =>
      obtain ⟨added, hadd, hlen⟩ := rangeCollections_panicked env c.groupCtx _ [] tr hloop
      have hrun : (c.Run env).trace = runDeferred env tr := by simp [Connector.Run, hloop]
      rw [hrun, filter_isEnsure_runDeferred, hadd, List.nil_append] at hcount
      omega

theorem allEnsured_of_succeeds (env : Env) (c : Connector) (hok : env.EnsureSucceeds)
    (hpop : ∀ coll ∈ c.cfg.Collections, coll.Populated) : AllEnsured c (c.Run env).trace := by
  obtain ⟨werr, nerr, merr, hrun⟩ := Run_of_succeeds env c hok hpop
  rw [hrun]
  constructor
  · simp only [List.filter_append]
    have h : ∀ colls : List Collection,
        ((colls.flatMap (ensuredThenWatched c.groupCtx)).filter Effect.isEnsure).length =
          3 * colls.length := by
      intro colls
      induction colls with
      | nil => rfl
      | cons coll rest ih =>
        rw [List.flatMap_cons, List.filter_append, List.length_append, ih]
        simp [ensuredThenWatched, Effect.isEnsure, List.filter]
        omega
    simp [h, Effect.isEnsure, List.filter]
  · intro e hmem
    rcases List.mem_append.mp hmem with hmem | hmem
    · obtain ⟨x, -, hx⟩ := List.mem_flatMap.mp hmem
      simp only [ensuredThenWatched, List.mem_cons, List.mem_singleton, List.not_mem_nil,
        or_false] at hx
      rcases hx with rfl | rfl | rfl | rfl <;> rfl
    · simp only [List.mem_cons, List.mem_singleton, List.not_mem_nil, or_false] at hmem
      rcases hmem with rfl | rfl | rfl | rfl | rfl | rfl <;> rfl

/-- C1: in every run in which the resource-creation calls of the configuration
all succeed (the three ensure steps of each collection are made and none
returns an error), `Run` performs, for each configured collection in
configuration order, `CreateCollection` for the watched collection, then
`CreateCollection` for the resume-token collection, then `AddStream` for the
stream name, and only then starts that collection's watcher; after the last
collection come the server task, the shutdown task, `Wait` and the deferred
calls.  In such a run every optional field is set, so the requests are built
from the configured values. -/
theorem Run_ensures_each_collection_in_order (env : Env) (c : Connector)
    (hall : AllEnsured c (c.Run env).trace) :
    ∃ werr nerr merr,
      (c.Run env).trace =
        c.cfg.Collections.flatMap (fun coll =>
          [ Effect.CreateCollection c.groupCtx (watchedCollOpts coll) none,
            Effect.CreateCollection c.groupCtx (resumeTokensCollOpts coll) none,
            Effect.AddStream coll.StreamName none,
            Effect.Go (watcherTask c.groupCtx coll) ]) ++
          [.Go (.listenAndServe c.server.Addr), .Go (.shutdown c.groupCtx .Background),
           .Wait werr, .stop, .Close .natsClient nerr, .Close .mongoClient merr] ∧
      (c.Run env).outcome = .returned werr ∧
      ∀ coll ∈ c.cfg.Collections, coll.Populated := by
  obtain ⟨hpop, werr, nerr, merr, h⟩ := Run_of_all_ensured env c hall
  exact ⟨werr, nerr, merr, by rw [h]; rfl, by rw [h], hpop⟩

theorem Run_ensures_each_collection_in_order_witness :
    AllEnsured (sampleConnector [sampleColl1, sampleColl2])
      ((sampleConnector [sampleColl1, sampleColl2]).Run quietEnv).trace ∧
    ∃ werr nerr merr,
      ((sampleConnector [sampleColl1, sampleColl2]).Run quietEnv).trace =
        [sampleColl1, sampleColl2].flatMap (fun coll =>
          [ Effect.CreateCollection (sampleConnector [sampleColl1, sampleColl2]).groupCtx
              (watchedCollOpts coll) none,
            Effect.CreateCollection (sampleConnector [sampleColl1, sampleColl2]).groupCtx
              (resumeTokensCollOpts coll) none,
            Effect.AddStream coll.StreamName none,
            Effect.Go (watcherTask (sampleConnector [sampleColl1, sampleColl2]).groupCtx coll) ]) ++
          [.Go (.listenAndServe ":8080"),
           .Go (.shutdown (sampleConnector [sampleColl1, sampleColl2]).groupCtx .Background),
           .Wait werr, .stop, .Close .natsClient nerr, .Close .mongoClient merr] ∧
      ((sampleConnector [sampleColl1, sampleColl2]).Run quietEnv).outcome = .returned werr ∧
      ∀ coll ∈ [sampleColl1, sampleColl2], coll.Populated :=
  ⟨by decide,
   Run_ensures_each_collection_in_order quietEnv (sampleConnector [sampleColl1, sampleColl2])
     (by decide)⟩

/-! ## Fail-fast: the run -/

theorem Run_of_fails (env : Env) (c : Connector) (before after : List Collection)
    (coll : Collection) (tr steps : List Effect) (err : Error)
    (hcolls : c.cfg.Collections = before ++ coll :: after)
    (hbefore : rangeCollections env c.groupCtx before [] = (tr, .next))
    (hfail : EnsureFails env c.groupCtx coll tr err steps) :
    c.Run env = { trace := runDeferred env (tr ++ steps), outcome := .returned (some err) } := by
  have hloop : rangeCollections env c.groupCtx c.cfg.Collections [] = (tr ++ steps, .returned err) := by
    rw [hcolls, rangeCollections_append_of_next env c.groupCtx before _ [] tr hbefore]
    simp [rangeCollections, loopBody_of_fails env c.groupCtx coll tr err steps hfail]
  simp [Connector.Run, hloop]

/-- C2: the ensurer is fail-fast.  Let `coll` be the collection at index `i`
of the configuration (`before` are the `i` collections ahead of it, whose loop
passes completed with the effects `tr`), and let one of its three ensure steps
return the error `err` (`steps` are the ensure steps of `coll` up to and
including the failing one).  Then `Run` returns exactly `err`; after the
failing step it performs only the deferred calls (stop, close of the two
clients), so no later ensure step is made for `coll` or any later collection;
the tasks started are exactly the watchers of the collections before `coll`,
so no watcher is started for `coll` or a later collection and neither the HTTP
server nor the shutdown task is started; and `Wait` is never called. -/
theorem Run_fail_fast (env : Env) (c : Connector) (before after : List Collection)
    (coll : Collection) (tr steps : List Effect) (err : Error)
    (hcolls : c.cfg.Collections = before ++ coll :: after)
    (hbefore : rangeCollections env c.groupCtx before [] = (tr, .next))
    (hfail : EnsureFails env c.groupCtx coll tr err steps) :
    (c.Run env).outcome = .returned (some err) ∧
    (∃ nerr merr, (c.Run env).trace =
      before.flatMap (ensuredThenWatched c.groupCtx) ++ steps ++
        [.stop, .Close .natsClient nerr, .Close .mongoClient merr]) ∧
    (∃ step, steps.getLast? = some step ∧
      (step = .CreateCollection c.groupCtx (watchedCollOpts coll) (some err) ∨
       step = .CreateCollection c.groupCtx (resumeTokensCollOpts coll) (some err) ∨
       step = .AddStream coll.StreamName (some err))) ∧
    (c.Run env).trace.filter Effect.isEnsure =
      (before.flatMap (ensuredThenWatched c.groupCtx)).filter Effect.isEnsure ++ steps ∧
    spawned (c.Run env).trace = before.map (watcherTask c.groupCtx) ∧
    (∀ werr, Effect.Wait werr ∉ (c.Run env).trace) := by
  have hrun := Run_of_fails env c before after coll tr steps err hcolls hbefore hfail
  obtain ⟨-, htr⟩ := rangeCollections_next env c.groupCtx before [] tr hbefore
  simp only [List.nil_append] at htr
  obtain ⟨hens, hsp, step, hlast, hstep⟩ :=
    filter_isEnsure_of_fails env c.groupCtx coll tr err steps hfail
  have htrace : (c.Run env).trace = before.flatMap (ensuredThenWatched c.groupCtx) ++ steps ++
      [.stop, .Close .natsClient (env.Close (tr ++ steps ++ [.stop]) .natsClient),
       .Close .mongoClient (env.Close (tr ++ steps ++ [.stop] ++
         [.Close .natsClient (env.Close (tr ++ steps ++ [.stop]) .natsClient)]) .mongoClient)] := by
    rw [hrun]
    simp [runDeferred, closeClient, htr]
  have hnowait : ∀ werr, Effect.Wait werr ∉ before.flatMap (ensuredThenWatched c.groupCtx) := by
    intro werr hmem
    obtain ⟨x, -, hx⟩ := List.mem_flatMap.mp hmem
    simp [ensuredThenWatched] at hx
  have hnowait2 : ∀ werr, Effect.Wait werr ∉ steps := by
    intro werr hmem
    cases hfail <;> simp at hmem
  refine ⟨by rw [hrun], ⟨_, _, htrace⟩, ⟨step, hlast, hstep⟩, ?_, ?_, ?_⟩
  · rw [htrace]
    simp [List.filter_append, hens, Effect.isEnsure]
  · rw [htrace]
    simp [spawned_append, spawned_ensuredThenWatched, hsp, spawned]
  · intro werr hmem
    rw [htrace] at hmem
    simp only [List.mem_append, List.mem_cons, List.mem_singleton, List.not_mem_nil,
      or_false] at hmem
    rcases hmem with (h | h) | h
    · exact hnowait werr h
    · exact hnowait2 werr h
    · simp at h

theorem Run_fail_fast_witness :
    (sampleConnector [sampleColl1, sampleColl2]).cfg.Collections =
      [sampleColl1] ++ sampleColl2 :: [] ∧
    rangeCollections streamFailsEnv (sampleConnector [sampleColl1, sampleColl2]).groupCtx
      [sampleColl1] [] =
      (ensuredThenWatched (.WithCancel sampleCtx) sampleColl1, .next) ∧
    EnsureFails streamFailsEnv (sampleConnector [sampleColl1, sampleColl2]).groupCtx sampleColl2
      (ensuredThenWatched (.WithCancel sampleCtx) sampleColl1) "nats: timeout"
      [ .CreateCollection (.WithCancel sampleCtx) (watchedCollOpts sampleColl2) none,
        .CreateCollection (.WithCancel sampleCtx) (resumeTokensCollOpts sampleColl2) none,
        .AddStream "COLL2" (some "nats: timeout") ] ∧
    ((sampleConnector [sampleColl1, sampleColl2]).Run streamFailsEnv).outcome =
      .returned (some "nats: timeout") ∧
    (∃ nerr merr, ((sampleConnector [sampleColl1, sampleColl2]).Run streamFailsEnv).trace =
      [sampleColl1].flatMap (ensuredThenWatched (sampleConnector [sampleColl1, sampleColl2]).groupCtx) ++
        [ .CreateCollection (.WithCancel sampleCtx) (watchedCollOpts sampleColl2) none,
          .CreateCollection (.WithCancel sampleCtx) (resumeTokensCollOpts sampleColl2) none,
          .AddStream "COLL2" (some "nats: timeout") ] ++
        [.stop, .Close .natsClient nerr, .Close .mongoClient merr]) ∧
    (∃ step,
      [ Effect.CreateCollection (.WithCancel sampleCtx) (watchedCollOpts sampleColl2) none,
        Effect.CreateCollection (.WithCancel sampleCtx) (resumeTokensCollOpts sampleColl2) none,
        Effect.AddStream "COLL2" (some "nats: timeout") ].getLast? = some step ∧
      (step = .CreateCollection (sampleConnector [sampleColl1, sampleColl2]).groupCtx
          (watchedCollOpts sampleColl2) (some "nats: timeout") ∨
       step = .CreateCollection (sampleConnector [sampleColl1, sampleColl2]).groupCtx
          (resumeTokensCollOpts sampleColl2) (some "nats: timeout") ∨
       step = .AddStream sampleColl2.StreamName (some "nats: timeout"))) ∧
    ((sampleConnector [sampleColl1, sampleColl2]).Run streamFailsEnv).trace.filter Effect.isEnsure =
      ([sampleColl1].flatMap
        (ensuredThenWatched (sampleConnector [sampleColl1, sampleColl2]).groupCtx)).filter
          Effect.isEnsure ++
        [ .CreateCollection (.WithCancel sampleCtx) (watchedCollOpts sampleColl2) none,
          .CreateCollection (.WithCancel sampleCtx) (resumeTokensCollOpts sampleColl2) none,
          .AddStream "COLL2" (some "nats: timeout") ] ∧
    spawned ((sampleConnector [sampleColl1, sampleColl2]).Run streamFailsEnv).trace =
      [sampleColl1].map (watcherTask (sampleConnector [sampleColl1, sampleColl2]).groupCtx) ∧
    (∀ werr, Effect.Wait werr ∉
      ((sampleConnector [sampleColl1, sampleColl2]).Run streamFailsEnv).trace) :=
  ⟨rfl, by decide, EnsureFails.stream (by decide) rfl rfl (by decide),
   Run_fail_fast streamFailsEnv (sampleConnector [sampleColl1, sampleColl2]) [sampleColl1] []
     sampleColl2 (ensuredThenWatched (.WithCancel sampleCtx) sampleColl1) _ "nats: timeout" rfl
     (by decide)
     (EnsureFails.stream (by decide) rfl rfl (by decide))⟩

/-! ## What is requested and what is started on the success path -/

theorem createRequests_append (xs ys : List Effect) :
    createRequests (xs ++ ys) = createRequests xs ++ createRequests ys := by
  induction xs with
  | nil => rfl
  | cons x rest ih => cases x <;> simp [createRequests, ih]

theorem createRequests_ensuredThenWatched (groupCtx : Context) (colls : List Collection) :
    createRequests (colls.flatMap (ensuredThenWatched groupCtx)) =
      colls.flatMap (fun coll => [watchedCollOpts coll, resumeTokensCollOpts coll]) := by
  induction colls with
  | nil => rfl
  | cons coll rest ih =>
    rw [List.flatMap_cons, List.flatMap_cons, createRequests_append, ih]
    rfl

theorem createRequests_loopBody (env : Env) (groupCtx : Context) (coll : Collection)
    (tr : List Effect) :
    ∃ added, (loopBody env groupCtx coll tr).1 = tr ++ added ∧
      createRequests added <+: [watchedCollOpts coll, resumeTokensCollOpts coll] := by
  cases h : loopBody env groupCtx coll tr with
  | mk tr1 exit =>
    cases exit with
    | next =>
      obtain ⟨-, h1⟩ := loopBody_next env groupCtx coll tr tr1 h
      exact ⟨_, h1, by simp [ensuredThenWatched, createRequests]⟩
    | returned err =>
      obtain ⟨steps, hf, h1⟩ := ensureFails_of_loopBody_returned env groupCtx coll tr tr1 err h
      refine ⟨steps, h1, ?_⟩
      cases hf with
      | watched images himages h1 => exact ⟨[resumeTokensCollOpts coll], rfl⟩
      | tokens hpop h1 h2 => exact ⟨[], rfl⟩
      | stream hpop h1 h2 h3 => exact ⟨[], rfl⟩
    | panicked =>
      obtain ⟨-, h1 | h1⟩ := loopBody_panicked_trace env groupCtx coll tr tr1 h
      · exact ⟨[], by simp [h1], by simp [createRequests]⟩
      · exact ⟨_, h1, ⟨[resumeTokensCollOpts coll], rfl⟩⟩

theorem createRequests_rangeCollections (env : Env) (groupCtx : Context)
    (colls : List Collection) (tr : List Effect) :
    ∃ added, (rangeCollections env groupCtx colls tr).1 = tr ++ added ∧
      createRequests added <+:
        colls.flatMap (fun coll => [watchedCollOpts coll, resumeTokensCollOpts coll]) := by
  induction colls generalizing tr with
  | nil => exact ⟨[], by simp [rangeCollections], by simp [createRequests]⟩
  | cons coll rest ih =>
    obtain ⟨added, hadd, hpre⟩ := createRequests_loopBody env groupCtx coll tr
    have hweak : createRequests added <+:
        (coll :: rest).flatMap (fun coll => [watchedCollOpts coll, resumeTokensCollOpts coll]) := by
      rw [List.flatMap_cons]
      exact hpre.trans (List.prefix_append _ _)
    cases h : loopBody env groupCtx coll tr with
    | mk tr1 exit =>
      rw [h] at hadd
      simp only at hadd
      cases exit with
      | next =>
        obtain ⟨-, h1⟩ := loopBody_next env groupCtx coll tr tr1 h
        obtain ⟨more, hmore, hpre2⟩ := ih tr1
        refine ⟨ensuredThenWatched groupCtx coll ++ more, ?_, ?_⟩
        · simp only [rangeCollections, h, hmore]
          rw [h1, List.append_assoc]
        · rw [List.flatMap_cons, createRequests_append]
          have : createRequests (ensuredThenWatched groupCtx coll) =
              [watchedCollOpts coll, resumeTokensCollOpts coll] := rfl
          rw [this]
          exact (List.prefix_append_right_inj _).mpr hpre2
      | returned err => exact ⟨added, by simp only [rangeCollections, h, hadd], hweak⟩
      | panicked => exact ⟨added, by simp only [rangeCollections, h, hadd], hweak⟩

theorem createRequests_runDeferred (env : Env) (tr : List Effect) :
    createRequests (runDeferred env tr) = createRequests tr := by
  simp [runDeferred, closeClient, createRequests_append, createRequests]

theorem createRequests_Run (env : Env) (c : Connector) :
    createRequests (c.Run env).trace <+:
      c.cfg.Collections.flatMap (fun coll => [watchedCollOpts coll, resumeTokensCollOpts coll]) := by
  obtain ⟨added, hadd, hpre⟩ :=
    createRequests_rangeCollections env c.groupCtx c.cfg.Collections []
  simp only [List.nil_append] at hadd
  cases h : rangeCollections env c.groupCtx c.cfg.Collections [] with
  | mk tr exit =>
    rw [h] at hadd
    simp only at hadd
    subst hadd
    cases exit <;>
      simpa [Connector.Run, h, createRequests_runDeferred, createRequests_append,
        createRequests] using hpre

/-- C5: in every run the collections `Run` asks to create follow the
configuration: the requests made are, in order, a leading part of the list
that has, for each configured collection, the watched collection and then the
resume-token collection.  When the ensure steps of the configuration are all
made and succeed, all of them are requested: for each collection the watched
collection in `(DbName, CollName)` with `ChangeStreamPreAndPostImages` as
configured, `Capped = false` and `SizeInBytes = 0`, and then the resume-token
collection in `(TokensDbName, TokensCollName)` with `Capped` and `SizeInBytes`
as configured and pre/post images off. -/
theorem Run_creation_requests (env : Env) (c : Connector) :
    createRequests (c.Run env).trace <+:
      c.cfg.Collections.flatMap (fun coll => [watchedCollOpts coll, resumeTokensCollOpts coll]) ∧
    (AllEnsured c (c.Run env).trace →
      ∃ requests : List (CreateCollectionOptions × CreateCollectionOptions),
        createRequests (c.Run env).trace = requests.flatMap (fun r => [r.1, r.2]) ∧
        List.Forall₂
          (fun (coll : Collection) (r : CreateCollectionOptions × CreateCollectionOptions) =>
            r.1.DbName = coll.DbName ∧ r.1.CollName = coll.CollName ∧
            some r.1.ChangeStreamPreAndPostImages = coll.ChangeStreamPreAndPostImages ∧
            r.1.Capped = false ∧ r.1.SizeInBytes = 0 ∧
            r.2.DbName = coll.TokensDbName ∧ r.2.CollName = coll.TokensCollName ∧
            some r.2.Capped = coll.TokensCollCapped ∧
            some r.2.SizeInBytes = coll.TokensCollSize ∧
            r.2.ChangeStreamPreAndPostImages = false)
          c.cfg.Collections requests) := by
  refine ⟨createRequests_Run env c, fun hall => ?_⟩
  obtain ⟨hpop, werr, nerr, merr, hrun⟩ := Run_of_all_ensured env c hall
  refine ⟨c.cfg.Collections.map (fun coll => (watchedCollOpts coll, resumeTokensCollOpts coll)),
    ?_, ?_⟩
  · rw [hrun]
    simp only [createRequests_append, createRequests_ensuredThenWatched]
    simp [createRequests, List.flatMap_def, List.map_map, Function.comp_def]
  · rw [List.forall₂_map_right_iff, List.forall₂_same]
    intro coll hmem
    obtain ⟨p1, p2, p3⟩ := hpop coll hmem
    obtain ⟨images, h1⟩ := Option.ne_none_iff_exists.mp p1
    obtain ⟨capped, h2⟩ := Option.ne_none_iff_exists.mp p2
    obtain ⟨size, h3⟩ := Option.ne_none_iff_exists.mp p3
    simp [watchedCollOpts, resumeTokensCollOpts, ← h1, ← h2, ← h3]

theorem Run_creation_requests_witness :
    AllEnsured (sampleConnector [sampleColl1, sampleColl2])
      ((sampleConnector [sampleColl1, sampleColl2]).Run quietEnv).trace ∧
    (∃ requests : List (CreateCollectionOptions × CreateCollectionOptions),
      createRequests ((sampleConnector [sampleColl1, sampleColl2]).Run quietEnv).trace =
        requests.flatMap (fun r => [r.1, r.2]) ∧
      List.Forall₂
        (fun (coll : Collection) (r : CreateCollectionOptions × CreateCollectionOptions) =>
          r.1.DbName = coll.DbName ∧ r.1.CollName = coll.CollName ∧
          some r.1.ChangeStreamPreAndPostImages = coll.ChangeStreamPreAndPostImages ∧
          r.1.Capped = false ∧ r.1.SizeInBytes = 0 ∧
          r.2.DbName = coll.TokensDbName ∧ r.2.CollName = coll.TokensCollName ∧
          some r.2.Capped = coll.TokensCollCapped ∧
          some r.2.SizeInBytes = coll.TokensCollSize ∧
          r.2.ChangeStreamPreAndPostImages = false)
        (sampleConnector [sampleColl1, sampleColl2]).cfg.Collections requests) ∧
    createRequests ((sampleConnector [sampleColl1, sampleColl2]).Run quietEnv).trace =
      [ { DbName := "test-connector", CollName := "coll1", Capped := false, SizeInBytes := 0,
          ChangeStreamPreAndPostImages := true },
        { DbName := "resume-tokens", CollName := "coll1", Capped := true, SizeInBytes := 4096,
          ChangeStreamPreAndPostImages := false },
        { DbName := "test-connector", CollName := "coll2", Capped := false, SizeInBytes := 0,
          ChangeStreamPreAndPostImages := true },
        { DbName := "resume-tokens", CollName := "coll2", Capped := false, SizeInBytes := 0,
          ChangeStreamPreAndPostImages := false } ] :=
  ⟨by decide,
   (Run_creation_requests quietEnv (sampleConnector [sampleColl1, sampleColl2])).2 (by decide),
   by decide⟩

/-- C9: in every run in which the ensure steps of the n configured collections
all succeed, `Run` starts exactly one watcher per configured collection, in configuration
order, the i-th one with the i-th collection's `DbName`, `CollName`,
`TokensDbName` and `TokensCollName`, followed by exactly two more tasks: the
HTTP server and the shutdown waiter. -/
theorem Run_spawns_one_watcher_per_collection (env : Env) (c : Connector)
    (hall : AllEnsured c (c.Run env).trace) :
    spawned (c.Run env).trace =
      c.cfg.Collections.map (fun coll =>
        Task.watcher c.groupCtx
          { WatchedDbName := coll.DbName, WatchedCollName := coll.CollName,
            ResumeTokensDbName := coll.TokensDbName,
            ResumeTokensCollName := coll.TokensCollName }) ++
        [.listenAndServe c.server.Addr, .shutdown c.groupCtx .Background] ∧
    (spawned (c.Run env).trace).length = c.cfg.Collections.length + 2 ∧
    ∀ (i : Nat) (hi : i < c.cfg.Collections.length),
      (spawned (c.Run env).trace)[i]? =
        some (Task.watcher c.groupCtx
          { WatchedDbName := (c.cfg.Collections.get ⟨i, hi⟩).DbName,
            WatchedCollName := (c.cfg.Collections.get ⟨i, hi⟩).CollName,
            ResumeTokensDbName := (c.cfg.Collections.get ⟨i, hi⟩).TokensDbName,
            ResumeTokensCollName := (c.cfg.Collections.get ⟨i, hi⟩).TokensCollName }) := by
  obtain ⟨-, werr, nerr, merr, hrun⟩ := Run_of_all_ensured env c hall
  have hsp : spawned (c.Run env).trace =
      c.cfg.Collections.map (watcherTask c.groupCtx) ++
        [.listenAndServe c.server.Addr, .shutdown c.groupCtx .Background] := by
    rw [hrun]
    simp [spawned_append, spawned_ensuredThenWatched, spawned]
  refine ⟨hsp, ?_, ?_⟩
  · simp [hsp]
  · intro i hi
    rw [hsp, List.getElem?_append_left (by simpa using hi)]
    simp [List.getElem?_map, List.getElem?_eq_getElem hi, watcherTask]

theorem Run_spawns_one_watcher_per_collection_witness :
    AllEnsured (sampleConnector [sampleColl1, sampleColl2])
      ((sampleConnector [sampleColl1, sampleColl2]).Run quietEnv).trace ∧
    spawned ((sampleConnector [sampleColl1, sampleColl2]).Run quietEnv).trace =
      [sampleColl1, sampleColl2].map (fun coll =>
        Task.watcher (.WithCancel sampleCtx)
          { WatchedDbName := coll.DbName, WatchedCollName := coll.CollName,
            ResumeTokensDbName := coll.TokensDbName,
            ResumeTokensCollName := coll.TokensCollName }) ++
        [.listenAndServe ":8080", .shutdown (.WithCancel sampleCtx) .Background] ∧
    (spawned ((sampleConnector [sampleColl1, sampleColl2]).Run quietEnv).trace).length = 2 + 2 ∧
    ∀ (i : Nat) (hi : i < 2),
      (spawned ((sampleConnector [sampleColl1, sampleColl2]).Run quietEnv).trace)[i]? =
        some (Task.watcher (.WithCancel sampleCtx)
          { WatchedDbName := ([sampleColl1, sampleColl2].get ⟨i, hi⟩).DbName,
            WatchedCollName := ([sampleColl1, sampleColl2].get ⟨i, hi⟩).CollName,
            ResumeTokensDbName := ([sampleColl1, sampleColl2].get ⟨i, hi⟩).TokensDbName,
            ResumeTokensCollName := ([sampleColl1, sampleColl2].get ⟨i, hi⟩).TokensCollName }) :=
  ⟨by decide,
   Run_spawns_one_watcher_per_collection quietEnv (sampleConnector [sampleColl1, sampleColl2])
     (by decide)⟩

/-! ## Reads of the optional fields -/

theorem loopBody_not_panicked (env : Env) (groupCtx : Context) (coll : Collection)
    (hpop : coll.Populated) (tr : List Effect) :
    (loopBody env groupCtx coll tr).2 ≠ .panicked := by
  obtain ⟨h1, h2, h3⟩ := hpop
  obtain ⟨images, hi⟩ := Option.ne_none_iff_exists.mp h1
  obtain ⟨capped, hc⟩ := Option.ne_none_iff_exists.mp h2
  obtain ⟨size, hs⟩ := Option.ne_none_iff_exists.mp h3
  simp only [loopBody, ← hi, ← hc, ← hs]
  split
  · simp
  · split
    · simp
    · split <;> simp

theorem rangeCollections_not_panicked (env : Env) (groupCtx : Context)
    (colls : List Collection) (hpop : ∀ coll ∈ colls, coll.Populated) (tr : List Effect) :
    (rangeCollections env groupCtx colls tr).2 ≠ .panicked := by
  induction colls generalizing tr with
  | nil => simp [rangeCollections]
  | cons coll rest ih =>
    have hc := loopBody_not_panicked env groupCtx coll (hpop coll (List.mem_cons_self _ _)) tr
    have hr : ∀ x ∈ rest, x.Populated := fun x hx => hpop x (List.mem_cons_of_mem _ hx)
    simp only [rangeCollections]
    split
    · exact ih hr _
    · simp
    · rename_i tr1 hbody
      rw [hbody] at hc
      exact absurd rfl hc

/-- C10, counterexample: with `tokensCollCapped = false` and `tokensCollSize`
absent, `Run` faults on the nil dereference: the watched collection has been
requested, no token collection ever is. -/
theorem Run_faults_without_tokensCollSize :
    ((sampleConnector [collWithoutSize]).Run quietEnv).outcome = .panicked ∧
    createRequests ((sampleConnector [collWithoutSize]).Run quietEnv).trace =
      [ { DbName := "test-connector", CollName := "coll2", Capped := false, SizeInBytes := 0,
          ChangeStreamPreAndPostImages := true } ] := by
  decide

/-- C10, amended: `Run` reads `ChangeStreamPreAndPostImages`, `TokensCollCapped`
and `TokensCollSize` through their pointers without a guard; when all three are
set for every collection these reads never fault, whatever the collaborators
answer, and `Run` returns.  If moreover the creation calls succeed, an entry
with `tokensCollCapped = false` and `tokensCollSize = 0` gets an uncapped token
collection request with `SizeInBytes = 0`. -/
theorem Run_reads_do_not_fault_when_set (env : Env) (c : Connector)
    (hpop : ∀ coll ∈ c.cfg.Collections, coll.Populated) :
    (∃ err, (c.Run env).outcome = .returned err) ∧
    (env.EnsureSucceeds → ∀ coll ∈ c.cfg.Collections,
      coll.TokensCollCapped = some false → coll.TokensCollSize = some 0 →
      ({ DbName := coll.TokensDbName, CollName := coll.TokensCollName, Capped := false,
         SizeInBytes := 0, ChangeStreamPreAndPostImages := false } : CreateCollectionOptions) ∈
        createRequests (c.Run env).trace) := by
  constructor
  · have h := rangeCollections_not_panicked env c.groupCtx c.cfg.Collections hpop []
    simp only [Connector.Run]
    split
    · exact ⟨_, rfl⟩
    · rename_i tr hloop
      rw [hloop] at h
      exact absurd rfl h
    · exact ⟨_, rfl⟩
  · intro hok coll hmem hc hs
    obtain ⟨werr, nerr, merr, hrun⟩ := Run_of_succeeds env c hok hpop
    rw [hrun]
    simp only [createRequests_append, createRequests_ensuredThenWatched, List.mem_append,
      List.mem_flatMap]
    refine Or.inl ⟨coll, hmem, ?_⟩
    simp [resumeTokensCollOpts, hc, hs]

theorem Run_reads_do_not_fault_when_set_witness :
    (∀ coll ∈ (sampleConnector [sampleColl1, sampleColl2]).cfg.Collections, coll.Populated) ∧
    (∃ err, ((sampleConnector [sampleColl1, sampleColl2]).Run quietEnv).outcome =
      .returned err) ∧
    (quietEnv.EnsureSucceeds → ∀ coll ∈ [sampleColl1, sampleColl2],
      coll.TokensCollCapped = some false → coll.TokensCollSize = some 0 →
      ({ DbName := coll.TokensDbName, CollName := coll.TokensCollName, Capped := false,
         SizeInBytes := 0, ChangeStreamPreAndPostImages := false } : CreateCollectionOptions) ∈
        createRequests ((sampleConnector [sampleColl1, sampleColl2]).Run quietEnv).trace) :=
  ⟨by decide,
   Run_reads_do_not_fault_when_set quietEnv (sampleConnector [sampleColl1, sampleColl2])
     (by decide)⟩

/-! ## The context handed to `server.Shutdown` -/

theorem shutdownContexts_append (xs ys : List Effect) :
    shutdownContexts (xs ++ ys) = shutdownContexts xs ++ shutdownContexts ys := by
  induction xs with
  | nil => rfl
  | cons x rest ih =>
    cases x with
    | Go task => cases task <;> simp [shutdownContexts, ih]
    | _ => simp [shutdownContexts, ih]

theorem shutdownContexts_loopBody (env : Env) (groupCtx : Context) (coll : Collection)
    (tr : List Effect) :
    shutdownContexts (loopBody env groupCtx coll tr).1 = shutdownContexts tr := by
  cases himages : coll.ChangeStreamPreAndPostImages <;>
    cases hcapped : coll.TokensCollCapped <;>
    cases hsize : coll.TokensCollSize <;>
    simp only [loopBody, himages, hcapped, hsize] <;>
    repeat' split
  all_goals simp [shutdownContexts_append, shutdownContexts]

theorem shutdownContexts_rangeCollections (env : Env) (groupCtx : Context)
    (colls : List Collection) (tr : List Effect) :
    shutdownContexts (rangeCollections env groupCtx colls tr).1 = shutdownContexts tr := by
  induction colls generalizing tr with
  | nil => rfl
  | cons coll rest ih =>
    have hbody := shutdownContexts_loopBody env groupCtx coll tr
    simp only [rangeCollections]
    split
    · rename_i tr1 h
      rw [h] at hbody
      rw [ih tr1]
      exact hbody
    · rename_i tr1 err h
      rw [h] at hbody
      exact hbody
    · rename_i tr1 h
      rw [h] at hbody
      exact hbody

theorem shutdownContexts_runDeferred (env : Env) (tr : List Effect) :
    shutdownContexts (runDeferred env tr) = shutdownContexts tr := by
  simp [runDeferred, closeClient, shutdownContexts_append, shutdownContexts]

theorem shutdownContexts_Run (env : Env) (c : Connector) :
    shutdownContexts (c.Run env).trace = [] ∨
      shutdownContexts (c.Run env).trace = [Context.Background] := by
  have hloop := shutdownContexts_rangeCollections env c.groupCtx c.cfg.Collections []
  simp only [Connector.Run]
  split
  · rename_i tr err h
    rw [h] at hloop
    left
    simpa [shutdownContexts_runDeferred, shutdownContexts] using hloop
  · rename_i tr h
    rw [h] at hloop
    left
    simpa [shutdownContexts_runDeferred, shutdownContexts] using hloop
  · rename_i tr h
    rw [h] at hloop
    right
    simp only [shutdownContexts] at hloop
    simp [shutdownContexts_runDeferred, shutdownContexts_append, shutdownContexts, hloop]

/-- C7, counterexample: on the sample configuration the context `Run` passes
to `server.Shutdown` is `context.Background()`, which carries no deadline. -/
theorem Run_shutdown_context_without_deadline :
    shutdownContexts ((sampleConnector [sampleColl1, sampleColl2]).Run quietEnv).trace =
      [Context.Background] ∧
    (shutdownContexts ((sampleConnector [sampleColl1, sampleColl2]).Run quietEnv).trace).map
      Context.hasDeadline = [false] := by
  decide

/-- C7, amended: every context that `Run` passes to `server.Shutdown` is
`context.Background()`, which carries no deadline: once the group context is
cancelled the shutdown task waits for in-flight requests without a bound set
by `Run`. -/
theorem Run_shutdown_context_is_background (env : Env) (c : Connector) (ctx : Context)
    (hmem : ctx ∈ shutdownContexts (c.Run env).trace) :
    ctx = Context.Background ∧ ctx.hasDeadline = false := by
  rcases shutdownContexts_Run env c with h | h
  · rw [h] at hmem
    simp at hmem
  · rw [h] at hmem
    simp only [List.mem_singleton] at hmem
    subst hmem
    exact ⟨rfl, rfl⟩

theorem Run_shutdown_context_is_background_witness :
    Context.Background ∈
      shutdownContexts ((sampleConnector [sampleColl1, sampleColl2]).Run quietEnv).trace ∧
    (Context.Background = Context.Background ∧ Context.Background.hasDeadline = false) :=
  ⟨by decide,
   Run_shutdown_context_is_background quietEnv (sampleConnector [sampleColl1, sampleColl2])
     Context.Background (by decide)⟩

/-! ## Clients and watchers -/

theorem not_mem_close_ensuredThenWatched (groupCtx : Context) (colls : List Collection)
    (client : Client) (err : Option Error) :
    Effect.Close client err ∉ colls.flatMap (ensuredThenWatched groupCtx) := by
  intro hmem
  obtain ⟨x, -, hx⟩ := List.mem_flatMap.mp hmem
  simp [ensuredThenWatched] at hx

/-- On the path where the loop completes, `Run` returns from `group.Wait`
before the deferred calls close the clients. -/
theorem Run_waits_before_closing_of_all_ensured (env : Env) (c : Connector)
    (hall : AllEnsured c (c.Run env).trace) :
    ClientsOutliveWatchers (c.Run env).trace := by
  obtain ⟨-, werr, nerr, merr, hrun⟩ := Run_of_all_ensured env c hall
  intro before client err after hsplit _
  refine ⟨werr, ?_⟩
  rw [hrun] at hsplit
  have hshape : c.cfg.Collections.flatMap (ensuredThenWatched c.groupCtx) ++
      [.Go (.listenAndServe c.server.Addr), .Go (.shutdown c.groupCtx .Background),
       .Wait werr, .stop, .Close .natsClient nerr, .Close .mongoClient merr] =
      (c.cfg.Collections.flatMap (ensuredThenWatched c.groupCtx) ++
        [.Go (.listenAndServe c.server.Addr), .Go (.shutdown c.groupCtx .Background),
         .Wait werr, .stop]) ++ [.Close .natsClient nerr, .Close .mongoClient merr] := by
    simp
  simp only [] at hsplit
  rw [hshape] at hsplit
  rcases List.append_eq_append_iff.mp hsplit with ⟨mid, h1, h2⟩ | ⟨mid, h1, h2⟩
  · rw [h1]
    simp
  · cases mid with
    | nil =>
      simp only [List.append_nil] at h1
      rw [← h1]
      simp
    | cons x rest =>
      simp only [List.cons_append, List.cons.injEq] at h2
      have hx : Effect.Close client err ∈ c.cfg.Collections.flatMap (ensuredThenWatched c.groupCtx) ++
          [.Go (.listenAndServe c.server.Addr), .Go (.shutdown c.groupCtx .Background),
           .Wait werr, .stop] := by
        rw [h1, h2.1]
        simp
      rcases List.mem_append.mp hx with hx | hx
      · exact absurd hx (not_mem_close_ensuredThenWatched _ _ _ _)
      · simp at hx

/-- C6, the failing run: creating the second collection fails after the
watcher of the first one was started.  `Run` returns the error at once: the
deferred calls close both clients, and `group.Wait` was never called, so the
clients are closed while the watcher of `coll1` has not been waited for. -/
theorem Run_closes_clients_without_waiting :
    ((sampleConnector [sampleColl1, sampleColl2]).Run createFailsEnv).outcome =
      .returned (some "mongo: unauthorized") ∧
    ((sampleConnector [sampleColl1, sampleColl2]).Run createFailsEnv).trace =
      [ .CreateCollection (.WithCancel sampleCtx)
          { DbName := "test-connector", CollName := "coll1", ChangeStreamPreAndPostImages := true }
          none,
        .CreateCollection (.WithCancel sampleCtx)
          { DbName := "resume-tokens", CollName := "coll1", Capped := true, SizeInBytes := 4096 }
          none,
        .AddStream "COLL1" none,
        .Go (.watcher (.WithCancel sampleCtx)
          { WatchedDbName := "test-connector", WatchedCollName := "coll1",
            ResumeTokensDbName := "resume-tokens", ResumeTokensCollName := "coll1" }),
        .CreateCollection (.WithCancel sampleCtx)
          { DbName := "test-connector", CollName := "coll2", ChangeStreamPreAndPostImages := true }
          (some "mongo: unauthorized"),
        .stop,
        .Close .natsClient none,
        .Close .mongoClient none ] ∧
    ¬ ClientsOutliveWatchers
      ((sampleConnector [sampleColl1, sampleColl2]).Run createFailsEnv).trace := by
  refine ⟨by decide, by decide, ?_⟩
  intro h
  obtain ⟨werr, hw⟩ := h
    [ .CreateCollection (.WithCancel sampleCtx)
        { DbName := "test-connector", CollName := "coll1", ChangeStreamPreAndPostImages := true }
        none,
      .CreateCollection (.WithCancel sampleCtx)
        { DbName := "resume-tokens", CollName := "coll1", Capped := true, SizeInBytes := 4096 }
        none,
      .AddStream "COLL1" none,
      .Go (.watcher (.WithCancel sampleCtx)
        { WatchedDbName := "test-connector", WatchedCollName := "coll1",
          ResumeTokensDbName := "resume-tokens", ResumeTokensCollName := "coll1" }),
      .CreateCollection (.WithCancel sampleCtx)
        { DbName := "test-connector", CollName := "coll2", ChangeStreamPreAndPostImages := true }
        (some "mongo: unauthorized"),
      .stop ]
    .natsClient none [.Close .mongoClient none] (by decide)
    ⟨.WithCancel sampleCtx,
      { WatchedDbName := "test-connector", WatchedCollName := "coll1",
        ResumeTokensDbName := "resume-tokens", ResumeTokensCollName := "coll1" }, by decide⟩
  simp at hw

/-! ## The subject of the published events -/

/-- C3, the failing input: a collection `coll1` whose stream is named `EVENTS`.
`Run` adds the stream `EVENTS`, but the watcher it starts is the very same task
as for the stream name `COLL1`: a watcher is told the database and collection
names only, whatever the stream name.  So the subject it publishes on cannot
be `EVENTS.insert` in one run and `COLL1.insert` in the other, as
`upper(streamName) + "." + op` asks: no way of choosing the subject from what
the watcher is given meets that formula for every collection. -/
theorem Run_watcher_is_not_told_StreamName :
    spawned ((sampleConnector [collOwnStream]).Run quietEnv).trace =
      spawned ((sampleConnector [sampleColl1]).Run quietEnv).trace ∧
    Effect.AddStream "EVENTS" none ∈ ((sampleConnector [collOwnStream]).Run quietEnv).trace ∧
    Effect.AddStream "COLL1" none ∈ ((sampleConnector [sampleColl1]).Run quietEnv).trace ∧
    specSubject collOwnStream "insert" = "EVENTS.insert" ∧
    specSubject sampleColl1 "insert" = "COLL1.insert" ∧
    (∀ (groupCtx : Context) (coll : Collection) (streamName : String),
      watcherTask groupCtx { coll with StreamName := streamName } = watcherTask groupCtx coll) ∧
    ¬ ∃ publishedOn : Task → String → String, ∀ (coll : Collection) (op : String),
      publishedOn (watcherTask (.WithCancel sampleCtx) coll) op = specSubject coll op := by
  refine ⟨by decide, by decide, by decide, by decide, by decide, ?_, ?_⟩
  · intro groupCtx coll streamName
    rfl
  · rintro ⟨publishedOn, hsubject⟩
    have h1 := hsubject collOwnStream "insert"
    have h2 := hsubject sampleColl1 "insert"
    have htask : watcherTask (.WithCancel sampleCtx) collOwnStream =
        watcherTask (.WithCancel sampleCtx) sampleColl1 := rfl
    rw [htask, h2] at h1
    exact absurd h1 (by decide)

/-! ## The process entry point -/

/-- C8: whatever `config.Load`, `New` and `Run` do, `main` ends the process
with a status other than 0.  A config load failure, a connector construction
failure and every return of `Run` (also with a nil error) end in `log.Fatalf`,
that is status 1; the only other end is a runtime fault inside `Run`, status 2. -/
theorem main_never_exits_zero (env : MainEnv) :
    (main env).status ≠ 0 ∧
    (∀ err, env.Load (configFileName env) = .error err →
      main env = Fatalf ("error while loading config: " ++ err)) ∧
    (∀ cfg err, env.Load (configFileName env) = .ok cfg → New env.newEnv cfg = .error err →
      main env = Fatalf ("could not create connector: " ++ err)) ∧
    (∀ cfg conn err, env.Load (configFileName env) = .ok cfg → New env.newEnv cfg = .ok conn →
      (conn.Run env.runEnv).outcome = .returned err →
      main env = Fatalf ("exiting: " ++ formatError err)) ∧
    (∀ cfg conn, env.Load (configFileName env) = .ok cfg → New env.newEnv cfg = .ok conn →
      (conn.Run env.runEnv).outcome = .panicked → main env = runtimePanic) := by
  refine ⟨?_, ?_, ?_, ?_, ?_⟩
  · simp only [main]
    cases hload : env.Load (configFileName env) with
    | error err => simp [Fatalf]
    | ok cfg =>
      dsimp only
      cases hnew : New env.newEnv cfg with
      | error err => simp [Fatalf]
      | ok conn =>
        dsimp only
        cases hrun : (conn.Run env.runEnv).outcome with
        | returned err => simp [Fatalf]
        | panicked => simp [runtimePanic]
  · intro err hload
    simp [main, hload]
  · intro cfg err hload hnew
    simp [main, hload, hnew]
  · intro cfg conn err hload hnew hrun
    simp [main, hload, hnew, hrun]
  · intro cfg conn hload hnew hrun
    simp [main, hload, hnew, hrun]

theorem main_never_exits_zero_witness :
    (main sampleMainEnv).status ≠ 0 ∧ main sampleMainEnv = Fatalf "exiting: <nil>" :=
  ⟨(main_never_exits_zero sampleMainEnv).1,
   (main_never_exits_zero sampleMainEnv).2.2.2.1 (sampleConnector [sampleColl1, sampleColl2]).cfg
     (sampleConnector [sampleColl1, sampleColl2]) none rfl rfl (by decide)⟩

/-! ## The resume token of a forwarded event -/

namespace Watcher

theorem TokenStore.Last_Append (store : TokenStore) (token : String) (evicted : Nat) :
    (store.Append token evicted).Last = some token := by
  unfold TokenStore.Append TokenStore.Last
  by_cases hcap : store.capped = true
  · simp only [hcap, if_true]
    rw [List.drop_append_of_le_length (Nat.min_le_right _ _)]
    simp
  · simp [hcap]

theorem sessionOf_append (trace : List Action) (action : Action) :
    sessionOf (trace ++ [action]) = (sessionOf trace).after action := by
  simp [sessionOf, List.foldl_append]

theorem consistent_stepInit (s : State) (input : Input) (hphase : s.phase = .Init)
    (h : Consistent s) : Consistent (stepInit s input) := by
  unfold Consistent at h ⊢
  cases input <;> simp only [stepInit] <;>
    generalize sessionOf s.trace = sess at h ⊢ <;>
    cases sess <;> simp_all [Phase.inFlight, Phase.offStream]

theorem consistent_stepOpening (s : State) (token : Option String) (input : Input)
    (hphase : s.phase = .Opening token) (h : Consistent s) :
    Consistent (stepOpening s token input) := by
  unfold Consistent at h ⊢
  rcases input with _ | (_ | _ | _) | _ | _ | _ | _ | _ | _ | _ | _ <;>
    simp only [stepOpening, sessionOf_append] <;>
    generalize sessionOf s.trace = sess at h ⊢ <;>
    cases sess <;> simp_all [Phase.inFlight, Phase.offStream, Session.after]

theorem consistent_stepRunning (s : State) (input : Input) (hphase : s.phase = .Running)
    (h : Consistent s) : Consistent (stepRunning s input) := by
  unfold Consistent at h ⊢
  cases input with
  | event ev =>
    by_cases hzero : ev.idData = "" <;>
      simp only [stepRunning, hzero, if_true, if_false] <;>
      generalize sessionOf s.trace = sess at h ⊢ <;>
      cases sess <;> simp_all [Phase.inFlight, Phase.offStream]
  | _ =>
    simp only [stepRunning]
    generalize sessionOf s.trace = sess at h ⊢
    cases sess <;> simp_all [Phase.inFlight, Phase.offStream]

theorem consistent_stepForwarding (s : State) (ev : ChangeEvent) (input : Input)
    (hphase : s.phase = .Forwarding ev) (h : Consistent s) :
    Consistent (stepForwarding s ev input) := by
  unfold Consistent at h ⊢
  rcases input with _ | _ | _ | _ | _ | (_ | _) | _ | _ | _ | _ <;>
    simp only [stepForwarding, sessionOf_append] <;>
    generalize sessionOf s.trace = sess at h ⊢ <;>
    cases sess <;> simp_all [Phase.inFlight, Phase.offStream, Session.after, message]

theorem consistent_stepPersisting (s : State) (ev : ChangeEvent) (input : Input)
    (hphase : s.phase = .Persisting ev) (h : Consistent s) :
    Consistent (stepPersisting s ev input) := by
  unfold Consistent at h ⊢
  rcases input with _ | _ | _ | _ | _ | _ | ⟨(_ | _), evicted⟩ | _ | _ | _ <;>
    simp only [stepPersisting, sessionOf_append] <;>
    generalize sessionOf s.trace = sess at h ⊢ <;>
    cases sess <;>
    simp_all [Phase.inFlight, Phase.offStream, Session.after, TokenStore.Last_Append]

theorem consistent_stepBackoff (s : State) (input : Input) (hphase : s.phase = .Backoff)
    (h : Consistent s) : Consistent (stepBackoff s input) := by
  unfold Consistent at h ⊢
  cases input <;> simp only [stepBackoff] <;>
    generalize sessionOf s.trace = sess at h ⊢ <;>
    cases sess <;> simp_all [Phase.inFlight, Phase.offStream]

theorem consistent_stepDraining (s : State) (inflight : Option InFlight) (input : Input)
    (hphase : s.phase = .Draining inflight) (h : Consistent s) :
    Consistent (stepDraining s inflight input) := by
  unfold Consistent at h ⊢
  rcases inflight with _ | ev | ev <;>
    rcases input with _ | _ | _ | _ | _ | (_ | _) | ⟨(_ | _), evicted⟩ | _ | _ | _ <;>
    simp only [stepDraining, sessionOf_append] <;>
    generalize sessionOf s.trace = sess at h ⊢ <;>
    cases sess <;>
    simp_all [Phase.inFlight, Phase.offStream, Session.after, TokenStore.Last_Append, message]

theorem consistent_step (s : State) (input : Input) (h : Consistent s) :
    Consistent (step s input) := by
  unfold step
  split
  · exact consistent_stepInit s input (by assumption) h
  · exact consistent_stepOpening s _ input (by assumption) h
  · exact consistent_stepRunning s input (by assumption) h
  · exact consistent_stepForwarding s _ input (by assumption) h
  · exact consistent_stepPersisting s _ input (by assumption) h
  · exact consistent_stepBackoff s input (by assumption) h
  · exact consistent_stepDraining s _ input (by assumption) h
  · exact h

theorem consistent_run (s : State) (inputs : List Input) (h : Consistent s) :
    Consistent (run s inputs) := by
  induction inputs generalizing s with
  | nil => exact h
  | cons input rest ih => exact ih (step s input) (consistent_step s input h)

theorem consistent_init (streamName : String) (store : TokenStore) :
    Consistent (init streamName store) := by
  simp [Consistent, init, sessionOf, Phase.inFlight]

/-- Every event with a token can be forwarded and left behind: on a freshly
opened stream, an event that is published and whose token is appended brings
the watcher back to Running with that event as the last one forwarded. -/
theorem forwarded_of_fresh_run (streamName : String) (store : TokenStore) (ev : ChangeEvent)
    (evicted : Nat) (hid : ev.idData ≠ "") :
    lastForwarded (run (init streamName store)
      [.loaded, .watchResult .opened, .event ev, .publishResult true,
       .appendResult true evicted]).trace = some ev.idData ∧
    (run (init streamName store)
      [.loaded, .watchResult .opened, .event ev, .publishResult true,
       .appendResult true evicted]).phase = .Running := by
  simp [run, init, step, stepInit, stepOpening, stepRunning, stepForwarding, stepPersisting, hid,
    lastForwarded, sessionOf, Session.after, message]

/-- When the append fails the token is not advanced: the store is as before,
the watcher backs off and then reopens the stream from the last stored token. -/
theorem append_failure_backs_off (s : State) (ev : ChangeEvent) (evicted : Nat)
    (hphase : s.phase = .Persisting ev) :
    (step s (.appendResult false evicted)).phase = .Backoff ∧
    (step s (.appendResult false evicted)).store = s.store ∧
    (step (step s (.appendResult false evicted)) .backoffElapsed).phase =
      .Opening s.store.Last := by
  simp [step, hphase, stepPersisting, stepBackoff]

/-- C4: in every run of the watcher, from its start and over any token
collection, let `id` be the `_id._data` of the last event forwarded (published
with acknowledgement) on the open stream.  Once the watcher has moved on from
that event, that is, once it waits for the next event of the stream or handles
one, the most recently inserted record of its token collection, capped or not,
is `id`.  A forwarded event is never left in another way on the stream: in
every state either its token is the last record, or its token is just being
appended, or that append failed, and then the watcher is off the stream
(backing off, reopening it, or on its way out) with the token not advanced.
That last way is the recovery of section 4.5 item 5, not a moving on: the
stream is reopened from the last stored token, so the statement is about the
stream the event was forwarded on. -/
theorem token_is_last_once_moved_on (streamName : String) (store : TokenStore)
    (inputs : List Input) (id : String)
    (hforwarded : lastForwarded (run (init streamName store) inputs).trace = some id) :
    ((run (init streamName store) inputs).phase.movedOn = true →
      (run (init streamName store) inputs).store.Last = some id) ∧
    ((run (init streamName store) inputs).store.Last = some id ∨
      (∃ ev, (run (init streamName store) inputs).phase.inFlight = some ev ∧ ev.idData = id) ∨
      (sessionOf (run (init streamName store) inputs).trace = .failed id ∧
        (run (init streamName store) inputs).phase.offStream = true)) := by
  have h := consistent_run (init streamName store) inputs (consistent_init streamName store)
  generalize run (init streamName store) inputs = s at h hforwarded
  unfold Consistent at h
  unfold lastForwarded at hforwarded
  cases hsess : sessionOf s.trace with
  | idle => simp [hsess] at hforwarded
  | published id1 =>
    simp only [hsess, Option.some.injEq] at h hforwarded
    subst hforwarded
    obtain ⟨ev, hev, hid⟩ := h
    refine ⟨?_, Or.inr (Or.inl ⟨ev, hev, hid⟩)⟩
    intro hmoved
    rcases hphase : s.phase with _ | _ | _ | _ | _ | _ | (_ | _ | _) | _ <;>
      simp [hphase, Phase.movedOn, Phase.inFlight] at hmoved hev
  | stored id1 =>
    simp only [hsess, Option.some.injEq] at h hforwarded
    subst hforwarded
    exact ⟨fun _ => h.1, Or.inl h.1⟩
  | failed id1 =>
    simp only [hsess, Option.some.injEq] at h hforwarded
    subst hforwarded
    refine ⟨?_, Or.inr (Or.inr ⟨rfl, h⟩)⟩
    intro hmoved
    rcases hphase : s.phase with _ | _ | _ | _ | _ | _ | (_ | _ | _) | _ <;>
      simp [hphase, Phase.movedOn, Phase.offStream] at hmoved h

theorem token_is_last_once_moved_on_witness :
    (lastForwarded (run (init "COLL1" sampleStore) sampleInputs).trace = some "8264A2" ∧
      (run (init "COLL1" sampleStore) sampleInputs).phase.movedOn = true ∧
      (run (init "COLL1" sampleStore) sampleInputs).store.Last = some "8264A2") ∧
    (lastForwarded (run (init "COLL1" sampleStore) sampleFailedInputs).trace = some "8264A1" ∧
      (run (init "COLL1" sampleStore) sampleFailedInputs).phase = .Backoff ∧
      (run (init "COLL1" sampleStore) sampleFailedInputs).store.Last = some "826402") :=
  ⟨⟨by decide, by decide,
    (token_is_last_once_moved_on "COLL1" sampleStore sampleInputs "8264A2" (by decide)).1
      (by decide)⟩,
   by decide, by decide, by decide⟩

end Watcher

end MongoNats
